import Mathlib

/-!
Web-enabled thermostat (`web-therm.c`): embedding and verified properties.

Shallow embedding of the core of the sketch: the temperature smoother
(`getTemp`, `averageArrayItem`), the decision engine (`thermoStat`), the output
latch (`sendOutput`) and the settings codec (`setup`, `writeEEPROM`,
`eraseEEPROM`).

Modelling conventions.
* C `float` values are rationals (`ℚ`). The float arithmetic is embedded in two
  readings. In the first part of the file the functions combine and compare the values
  exactly. In the namespace `Binary32` the decision engine and the settings codec are
  embedded again with every float operation rounded to the nearest binary32 value, as
  the ESP8266 computes it. The decision rules C3 and C11 and the codec properties C4,
  C6 and C8, which depend on the value of `setPoint - hyst`, `setPoint + hyst` or
  `setPoint * 10`, are stated on the `Binary32` functions. The two decision engines
  agree wherever the rounded band edges compare like the exact ones
  (`Binary32.thermoStat_eq_of_agree`), in particular on every tick in which the
  fail-safe triggers or the power is off.
* `boolean`/`bool` globals are `Bool` (`0` is `false`, `1` is `true`).
* `unsigned long` is a `Nat` below `2^32`; subtraction wraps modulo `2^32`.
* `int` is `Int`; `byte` is `Fin 256`.
* The module-level variables of the sketch are the fields of `Globals`, passed
  explicitly through every function.
* The EEPROM object of the ESP8266 core is a RAM buffer (`data`, what
  `EEPROM.read` returns and `EEPROM.write` changes) over the flash contents
  (`flash`, replaced by the buffer at `EEPROM.commit`, copied into the buffer by
  `EEPROM.begin`); the field `calls` records the write and commit calls issued.
* `digitalWrite` calls are returned as a list of `(pin, value)` pairs.
-/

namespace WebTherm

/-! ## Constants and machine types -/

/-- An Arduino `byte`. -/
abbrev Byte := Fin 256

/-- Size of the averaging array: the define TEMPARRAYSIZE 60. -/
def TEMPARRAYSIZE : Nat := 60

/-- Time to wait before restarting the cooler, in ms: the define POWER_WAIT 300000. -/
def POWER_WAIT : Nat := 300000

/-- The address of the marker byte: `const int ID_ADDR = 0`. -/
def ID_ADDR : Nat := 0

/-- The address where the settings begin: `const int setPointAddr = 5`. -/
def setPointAddr : Nat := 5

/-- The marker of valid data: `const byte EEPROM_ID = 0x99`. -/
def EEPROM_ID : Byte := 0x99

/-- The marker of erased data: `const byte EEPROM_CLR = 0x98`. -/
def EEPROM_CLR : Byte := 0x98

/-- Number of values of an `unsigned long` (32 bits on the ESP8266). -/
def ULONG_SIZE : Nat := 2 ^ 32

/-- Unsigned 32-bit subtraction `a - b` of two `unsigned long` values. -/
def subULong (a b : Nat) : Nat := (a % ULONG_SIZE + ULONG_SIZE - b % ULONG_SIZE) % ULONG_SIZE

/-- Arduino `highByte(w)`: `(uint8_t) ((w) >> 8)`. -/
def highByte (w : Int) : Byte := Fin.ofNat ((w / 256) % 256).toNat

/-- Arduino `lowByte(w)`: `(uint8_t) ((w) & 0xff)`. -/
def lowByte (w : Int) : Byte := Fin.ofNat (w % 256).toNat

/-- Arduino `word(h, l)`: `(h << 8) | l`, a 16-bit unsigned value. -/
def word (h l : Byte) : Nat := h.val * 256 + l.val

/-- Conversion of a `float` to `int`: truncation toward zero. -/
def floatToInt (x : ℚ) : Int := if 0 ≤ x then ⌊x⌋ else ⌈x⌉

/-- Conversion of a `byte` to `bool`: nonzero is true. -/
def byteToBool (b : Byte) : Bool := decide (b ≠ 0)

/-- Conversion of a `bool` to `byte`: `true` is 1, `false` is 0. -/
def boolToByte (b : Bool) : Byte := if b then 1 else 0

/-! ## The EEPROM object -/

/-- The calls on the EEPROM object that change storage. -/
inductive EEPROMCall where
  | write (addr : Nat) (val : Byte)
  | commit
  deriving DecidableEq, Repr

/-- State of the EEPROM object: RAM buffer, flash contents, calls issued so far. -/
structure EEPROMClass where
  data : Nat → Byte
  flash : Nat → Byte
  calls : List EEPROMCall

namespace EEPROMClass

/-- The call `EEPROM.begin(size)`: loads the flash contents into the RAM buffer. -/
def begin (E : EEPROMClass) : EEPROMClass := { E with data := E.flash }

/-- The call `EEPROM.read(addr)`. -/
def read (E : EEPROMClass) (addr : Nat) : Byte := E.data addr

/-- The call `EEPROM.write(addr, val)`: changes the RAM buffer only. -/
def write (E : EEPROMClass) (addr : Nat) (val : Byte) : EEPROMClass :=
  { E with
    data := fun a => if a = addr then val else E.data a
    calls := E.calls ++ [EEPROMCall.write addr val] }

/-- The call `EEPROM.commit()`: the RAM buffer becomes the flash contents. -/
def commit (E : EEPROMClass) : EEPROMClass :=
  { E with flash := E.data, calls := E.calls ++ [EEPROMCall.commit] }

end EEPROMClass

/-! ## Global variables -/

/-- The module-level variables of the sketch. -/
structure Globals where
  tempArray : Nat → ℚ
  tempArrayCtr : Nat
  setPoint : ℚ
  hyst : ℚ
  avgTemp : ℚ
  device : Bool
  heatMode : Bool
  lastDeviceState : Bool
  heatOut : Bool
  powerSet : Bool
  deviceLastSetting : Bool
  failSafeTemp : Int
  tempPin : Int
  heatCtrlPin : Int
  storedSetPoint : Int
  storedPowerState : Bool
  storedHeatMode : Bool
  shutDownTimer : Nat

/-- The initial values of the globals; the pin numbers `A0` and `D2` come from the
board definition and are parameters. -/
def initGlobals (A0 D2 : Int) : Globals where
  tempArray := fun _ => 0
  tempArrayCtr := 0
  setPoint := 73.50
  hyst := 0.05
  avgTemp := 0
  device := false
  heatMode := false
  lastDeviceState := false
  heatOut := false
  powerSet := false
  deviceLastSetting := false
  failSafeTemp := 1
  tempPin := A0
  heatCtrlPin := D2
  storedSetPoint := 0
  storedPowerState := false
  storedHeatMode := false
  shutDownTimer := 0

/-! ## Temperature smoother -/

/-- The function `getVoltage(pin)` given the value `analogRead(pin)` returned. -/
def getVoltage (analogRead : Int) : ℚ := (analogRead : ℚ) * 0.00302734375

/-- The conversion of a raw reading to degrees Fahrenheit done in `getTemp`. -/
def degreesF (analogRead : Int) : ℚ :=
  let voltage := getVoltage analogRead
  let degreesC := (voltage - 0.5) * 100.0
  degreesC * (9.0 / 5.0) + 32.0

/-- The function `averageArrayItem(arr, n)`: the loop adds `arr[0]`, ..., `arr[n-1]` in this order. -/
def averageArrayItem (arr : Nat → ℚ) (n : Nat) : ℚ :=
  let sum := (List.range n).foldl (fun sum i => sum + arr i) 0
  sum / n

/-- The function `getTemp()` when `analogRead(tempPin)` returns `analogRead`. -/
def getTemp (analogRead : Int) (g : Globals) : Globals :=
  let degF := degreesF analogRead
  let g := { g with tempArray := fun i => if i = g.tempArrayCtr then degF else g.tempArray i }
  let g := { g with avgTemp := averageArrayItem g.tempArray TEMPARRAYSIZE }
  let g := { g with tempArrayCtr := g.tempArrayCtr + 1 }
  if g.tempArrayCtr ≥ TEMPARRAYSIZE then { g with tempArrayCtr := 0 } else g

/-! ## Decision engine -/

/-- The function `thermoStat()` when `millis()` returns `millis` (taken modulo `2^32`). -/
def thermoStat (millis : Nat) (g : Globals) : Globals :=
  let now := millis % ULONG_SIZE
  if g.avgTemp ≥ (g.failSafeTemp : ℚ) then
    let g :=
      if g.powerSet = true then
        if g.heatMode = false then
          if g.avgTemp ≤ g.setPoint - g.hyst then { g with device := true }
          else if g.avgTemp ≥ g.setPoint then { g with device := false }
          else { g with device := false }
        else
          if g.avgTemp ≥ g.setPoint + g.hyst ∧ subULong now g.shutDownTimer ≥ POWER_WAIT then
            { g with device := true }
          else if g.avgTemp ≤ g.setPoint then
            let g := { g with device := false }
            if g.deviceLastSetting ≠ g.device then { g with shutDownTimer := now } else g
          else g
      else
        let g := { g with device := false }
        if g.deviceLastSetting ≠ g.device then { g with shutDownTimer := now } else g
    { g with deviceLastSetting := g.device }
  else
    if g.device = true then { g with device := false } else g

/-- What is set before a tick from outside `thermoStat`: the clock value `millis()`
returns, the average temperature (`getTemp`), the set point (`addDegree`,
`minusDegree`) and the power setting (`powerOn`, `powerOff`). -/
structure TickInput where
  millis : Nat
  avgTemp : ℚ
  setPoint : ℚ
  powerSet : Bool

/-- One `thermoStat` tick in Cool mode (`heatMode == 1`) after the temperature, the
set point and the power setting have been set to the given values. -/
def coolTick (g : Globals) (i : TickInput) : Globals :=
  thermoStat i.millis
    { g with heatMode := true, avgTemp := i.avgTemp, setPoint := i.setPoint,
             powerSet := i.powerSet }

/-- A sequence of Cool-mode ticks, first input first. -/
def coolTicks (g : Globals) (ins : List TickInput) : Globals := ins.foldl coolTick g

/-! ## Output latch -/

/-- The function `sendOutput()`: the new globals and the `digitalWrite(pin, value)` calls issued. -/
def sendOutput (g : Globals) : Globals × List (Int × Bool) :=
  let writes := if g.device ≠ g.lastDeviceState then [(g.heatCtrlPin, g.device)] else []
  ({ g with lastDeviceState := g.device }, writes)

/-! ## Settings codec -/

/-- The settings part of `setup()`: `EEPROM.begin(512)` and the load of saved settings. -/
def setup (g : Globals) (E : EEPROMClass) : Globals × EEPROMClass :=
  let E := E.begin
  let id := E.read ID_ADDR
  if id = EEPROM_ID then
    let hiByte := E.read setPointAddr
    let lowByte := E.read (setPointAddr + 1)
    let g := { g with storedSetPoint := (word hiByte lowByte : Int) }
    let g := { g with setPoint := (g.storedSetPoint : ℚ) }
    let g := { g with setPoint := g.setPoint / 10 }
    let g := { g with storedPowerState := byteToBool (E.read (setPointAddr + 5)) }
    let g := { g with powerSet := g.storedPowerState }
    let g := { g with storedHeatMode := byteToBool (E.read (setPointAddr + 6)) }
    let g := { g with heatMode := g.storedHeatMode }
    (g, E)
  else (g, E)

/-- The function `eraseEEPROM()`: marks the stored data invalid and commits. -/
def eraseEEPROM (E : EEPROMClass) : EEPROMClass :=
  let E := E.write ID_ADDR EEPROM_CLR
  E.commit

/-- The three flags `writeEEPROM` passes to the result page. -/
structure UpdateFlags where
  setPointUpdated : Bool
  powerUpdated : Bool
  heatModeUpdated : Bool
  deriving DecidableEq, Repr

/-- The function `writeEEPROM()`: new globals, new EEPROM state, and the reported flags. -/
def writeEEPROM (g : Globals) (E : EEPROMClass) : Globals × EEPROMClass × UpdateFlags :=
  let r1 : Globals × EEPROMClass × Bool :=
    if (g.storedSetPoint : ℚ) ≠ g.setPoint * 10 then
      let g := { g with storedSetPoint := floatToInt (g.setPoint * 10) }
      let hiByte := highByte g.storedSetPoint
      let loByte := lowByte g.storedSetPoint
      let E := E.write setPointAddr hiByte
      let E := E.write (setPointAddr + 1) loByte
      (g, E, true)
    else (g, E, false)
  let g := r1.1
  let E := r1.2.1
  let setPointUpdated := r1.2.2
  let r2 : Globals × EEPROMClass × Bool :=
    if g.storedPowerState ≠ g.powerSet then
      let g := { g with storedPowerState := g.powerSet }
      let E := E.write (setPointAddr + 5) (boolToByte g.storedPowerState)
      (g, E, true)
    else (g, E, false)
  let g := r2.1
  let E := r2.2.1
  let powerUpdated := r2.2.2
  let r3 : Globals × EEPROMClass × Bool :=
    if g.storedHeatMode ≠ g.heatMode then
      let g := { g with storedHeatMode := g.heatMode }
      let E := E.write (setPointAddr + 6) (boolToByte g.storedHeatMode)
      (g, E, true)
    else (g, E, false)
  let g := r3.1
  let E := r3.2.1
  let heatModeUpdated := r3.2.2
  let E :=
    if powerUpdated = true ∨ setPointUpdated = true ∨ heatModeUpdated = true then
      let E := E.write ID_ADDR EEPROM_ID
      E.commit
    else E
  (g, E, ⟨setPointUpdated, powerUpdated, heatModeUpdated⟩)

/-! ## The binary32 reading of the float arithmetic

The functions above compare and combine the float values as exact numbers. The
namespace `Binary32` embeds the decision engine and the settings codec once more with
every float operation of the source rounded to the nearest binary32 value (ties to
even), which is what the ESP8266 computes: `setPoint - hyst`, `setPoint + hyst`,
`setPoint * 10`, `setPoint / 10` and the conversions between `int` and `float`.
The values of the float globals are the rationals that are binary32 values. Infinities
and NaN are not modelled: a result beyond the binary32 range is rounded as if the
exponent were unbounded. -/

namespace Binary32

/-- Rounding of a rational to the nearest integer, ties to the even integer. -/
def roundHalfEven (q : ℚ) : Int :=
  let f := ⌊q⌋
  let r := q - (f : ℚ)
  if r < 1 / 2 then f else if 1 / 2 < r then f + 1 else if f % 2 = 0 then f else f + 1

/-- Exponent of the binade of `x`: the floor of its binary logarithm, and -126 for the
subnormal values. -/
def exponent (x : ℚ) : Int := max (Int.log 2 |x|) (-126)

/-- Rounding to the nearest binary32 value, ties to even: the significand has 24 bits,
so the spacing of the values in the binade of `x` is `2 ^ (exponent x - 23)`. -/
def round (x : ℚ) : ℚ :=
  let ulp : ℚ := (2 : ℚ) ^ (exponent x - 23)
  (roundHalfEven (x / ulp) : ℚ) * ulp

/-- Conversion of a `float` to a 32-bit `int`: truncation toward zero; a value out of
range gives the nearest bound, as the conversion routine of the ESP8266 toolchain does
(C leaves that case undefined). -/
def floatToInt (x : ℚ) : Int := max (-(2 : Int) ^ 31) (min ((2 : Int) ^ 31 - 1) (WebTherm.floatToInt x))

/-- The initial values of the globals, the float initialisers rounded to binary32
(`hyst` is the binary32 value nearest to 0.05). -/
def initGlobals (A0 D2 : Int) : Globals :=
  { WebTherm.initGlobals A0 D2 with
    setPoint := round 73.50, hyst := round 0.05, avgTemp := round 0 }

/-- The function `thermoStat()` when `millis()` returns `millis` (taken modulo `2^32`),
with the float difference `setPoint - hyst`, the float sum `setPoint + hyst` and the
conversion of `failSafeTemp` to float rounded to binary32. -/
def thermoStat (millis : Nat) (g : Globals) : Globals :=
  let now := millis % ULONG_SIZE
  if g.avgTemp ≥ round (g.failSafeTemp : ℚ) then
    let g :=
      if g.powerSet = true then
        if g.heatMode = false then
          if g.avgTemp ≤ round (g.setPoint - g.hyst) then { g with device := true }
          else if g.avgTemp ≥ g.setPoint then { g with device := false }
          else { g with device := false }
        else
          if g.avgTemp ≥ round (g.setPoint + g.hyst)
              ∧ subULong now g.shutDownTimer ≥ POWER_WAIT then
            { g with device := true }
          else if g.avgTemp ≤ g.setPoint then
            let g := { g with device := false }
            if g.deviceLastSetting ≠ g.device then { g with shutDownTimer := now } else g
          else g
      else
        let g := { g with device := false }
        if g.deviceLastSetting ≠ g.device then { g with shutDownTimer := now } else g
    { g with deviceLastSetting := g.device }
  else
    if g.device = true then { g with device := false } else g

/-- The settings part of `setup()`: `EEPROM.begin(512)` and the load of saved settings,
with the conversion of `storedSetPoint` to float and the float division by 10 rounded
to binary32 (the divisor 10 is a binary32 value). -/
def setup (g : Globals) (E : EEPROMClass) : Globals × EEPROMClass :=
  let E := E.begin
  let id := E.read ID_ADDR
  if id = EEPROM_ID then
    let hiByte := E.read setPointAddr
    let lowByte := E.read (setPointAddr + 1)
    let g := { g with storedSetPoint := (word hiByte lowByte : Int) }
    let g := { g with setPoint := round (g.storedSetPoint : ℚ) }
    let g := { g with setPoint := round (g.setPoint / 10) }
    let g := { g with storedPowerState := byteToBool (E.read (setPointAddr + 5)) }
    let g := { g with powerSet := g.storedPowerState }
    let g := { g with storedHeatMode := byteToBool (E.read (setPointAddr + 6)) }
    let g := { g with heatMode := g.storedHeatMode }
    (g, E)
  else (g, E)

/-- The function `writeEEPROM()`: new globals, new EEPROM state, and the reported
flags, with the float product `setPoint * 10` and the conversion of `storedSetPoint` to
float rounded to binary32 (the factor 10 is a binary32 value). -/
def writeEEPROM (g : Globals) (E : EEPROMClass) : Globals × EEPROMClass × UpdateFlags :=
  let r1 : Globals × EEPROMClass × Bool :=
    if round (g.storedSetPoint : ℚ) ≠ round (g.setPoint * 10) then
      let g := { g with storedSetPoint := floatToInt (round (g.setPoint * 10)) }
      let hiByte := highByte g.storedSetPoint
      let loByte := lowByte g.storedSetPoint
      let E := E.write setPointAddr hiByte
      let E := E.write (setPointAddr + 1) loByte
      (g, E, true)
    else (g, E, false)
  let g := r1.1
  let E := r1.2.1
  let setPointUpdated := r1.2.2
  let r2 : Globals × EEPROMClass × Bool :=
    if g.storedPowerState ≠ g.powerSet then
      let g := { g with storedPowerState := g.powerSet }
      let E := E.write (setPointAddr + 5) (boolToByte g.storedPowerState)
      (g, E, true)
    else (g, E, false)
  let g := r2.1
  let E := r2.2.1
  let powerUpdated := r2.2.2
  let r3 : Globals × EEPROMClass × Bool :=
    if g.storedHeatMode ≠ g.heatMode then
      let g := { g with storedHeatMode := g.heatMode }
      let E := E.write (setPointAddr + 6) (boolToByte g.storedHeatMode)
      (g, E, true)
    else (g, E, false)
  let g := r3.1
  let E := r3.2.1
  let heatModeUpdated := r3.2.2
  let E :=
    if powerUpdated = true ∨ setPointUpdated = true ∨ heatModeUpdated = true then
      let E := E.write ID_ADDR EEPROM_ID
      E.commit
    else E
  (g, E, ⟨setPointUpdated, powerUpdated, heatModeUpdated⟩)

end Binary32

/-! ## Sequences of readings -/

/-- A sequence of `getTemp` calls, one per raw reading, first reading first. -/
def getTemps (g : Globals) (rs : List Int) : Globals := rs.foldl (fun g r => getTemp r g) g

/-- The last `TEMPARRAYSIZE` entries of the readings preceded by `TEMPARRAYSIZE` zeros. -/
def lastWindow (xs : List ℚ) : List ℚ :=
  (List.replicate TEMPARRAYSIZE (0 : ℚ) ++ xs).drop xs.length

/-- The ring invariant after `k` readings `xs`: the counter is `k mod 60` and the slot
`(k + j) mod 60` holds entry `j` of the window. -/
def RingInv (k : Nat) (xs : List ℚ) (g : Globals) : Prop :=
  g.tempArrayCtr = k % TEMPARRAYSIZE
  ∧ ∀ j, j < TEMPARRAYSIZE → g.tempArray ((k + j) % TEMPARRAYSIZE) = (lastWindow xs).getD j 0

/-! ## Concrete states and storage contents used as examples -/

/-- The state of the witness of C2: device on, Cool mode, power on, set point 70,
hysteresis 0.5, temperature 70. -/
def coolWitnessState : Globals :=
  { initGlobals 17 4 with
    device := true, deviceLastSetting := true, heatMode := true, powerSet := true,
    setPoint := 70, hyst := 0.5, avgTemp := 70 }

/-- A never-written EEPROM: every byte reads 0xFF. -/
def blankStorage : EEPROMClass := ⟨fun _ => 0xFF, fun _ => 0xFF, []⟩

/-- An EEPROM holding set point 73.6 (bytes 2 and 224), power on, Cool mode, with the
given marker byte. -/
def storageWithMarker (marker : Byte) : EEPROMClass :=
  ⟨fun _ => 0,
   fun a => if a = 0 then marker else if a = 5 then 2 else if a = 6 then 224
     else if a = 10 then 1 else if a = 11 then 1 else 0,
   []⟩

/-- A state in which the device is requested on and the output pin was last written
off. -/
def latchState : Globals := { initGlobals 17 4 with device := true, lastDeviceState := false }

/-- Sixty-one raw readings: one of 240 followed by sixty of 250. -/
def sampleReadings : List Int := 240 :: List.replicate 60 250

/-- A Heat-mode state in which the heater is requested on (power on, set point 73.5,
last shutdown recorded at clock value 0) while the sensor fails: the average
temperature has fallen to 0.5, below the fail-safe temperature 1. -/
def sensorFailState : Globals :=
  { initGlobals 17 4 with
    device := true, deviceLastSetting := true, powerSet := true, avgTemp := 0.5 }

namespace Binary32

/-- A Heat-mode state with power on, the given set point, the initial hysteresis (the
binary32 value of 0.05) and the given average temperature. -/
def heatState (setPoint avgTemp : ℚ) : Globals :=
  { initGlobals 17 4 with powerSet := true, setPoint := setPoint, avgTemp := avgTemp }

/-- A Cool-mode state with the device off, power on, the given set point, the initial
hysteresis, the given average temperature and the given recorded shutdown time. -/
def coolState (setPoint avgTemp : ℚ) (shutDownTimer : Nat) : Globals :=
  { initGlobals 17 4 with
    heatMode := true, powerSet := true, setPoint := setPoint, avgTemp := avgTemp,
    shutDownTimer := shutDownTimer }

/-- A state to save: the binary32 value nearest to 73.6 as set point, power on, Cool
mode, shadows at their initial values, so that all three fields differ from their
shadows. -/
def savedState : Globals :=
  { initGlobals 17 4 with setPoint := 9646899 / 131072, powerSet := true, heatMode := true }

/-- A state with the negative set point -5.0, power on, Cool mode, shadows at their
initial values. -/
def negativeState : Globals :=
  { initGlobals 17 4 with setPoint := -5, powerSet := true, heatMode := true }

/-- The state the device holds after it has loaded the set point 73.6 (stored as 736),
power on and Cool mode: the set point is the binary32 value nearest to 73.6 and the
shadows agree with the settings. -/
def loadedState : Globals :=
  { initGlobals 17 4 with
    setPoint := 9646899 / 131072, powerSet := true, heatMode := true,
    storedSetPoint := 736, storedPowerState := true, storedHeatMode := true }

end Binary32

/-! ## Properties of the decision engine -/

/-- C1. Fail-safe dominance: from every state (any mode, power setting, set point,
hysteresis, previous device value, last setting, shutdown timer) and at every clock
value, when `avgTemp < failSafeTemp` one call of `thermoStat` leaves the device
requested off. This holds for every value of `failSafeTemp`, in particular for the
value 1 the sketch gives it. -/
theorem thermoStat_failSafe_off (millis : Nat) (g : Globals)
    (h : g.avgTemp < (g.failSafeTemp : ℚ)) :
    (thermoStat millis g).device = false := by
  have hn : ¬ g.avgTemp ≥ (g.failSafeTemp : ℚ) := not_le.mpr h
  unfold thermoStat
  simp only [hn, if_false]
  cases hd : g.device <;> simp [hd]

/-- Witness of C1: device on, power on, Heat mode, average temperature 0 below the
fail-safe temperature 1. -/
theorem thermoStat_failSafe_off_witness :
    ({ initGlobals 17 4 with device := true, powerSet := true }).avgTemp
        < (({ initGlobals 17 4 with device := true, powerSet := true }).failSafeTemp : ℚ)
      ∧ (thermoStat 1000 { initGlobals 17 4 with device := true, powerSet := true }).device
          = false :=
  ⟨by norm_num [initGlobals],
   thermoStat_failSafe_off 1000 { initGlobals 17 4 with device := true, powerSet := true }
     (by norm_num [initGlobals])⟩

theorem subULong_mod (a b : Nat) :
    subULong (a % ULONG_SIZE) (b % ULONG_SIZE) = subULong a b := by
  unfold subULong
  rw [Nat.mod_mod, Nat.mod_mod]

/-- While the device is off with the last setting off, a Cool-mode tick within the
waiting time after the recorded shutdown keeps all of that. -/
theorem coolTick_keeps_off (T : Nat) (g : Globals) (i : TickInput)
    (hd : g.device = false) (hl : g.deviceLastSetting = false)
    (ht : g.shutDownTimer = T % ULONG_SIZE) (hw : subULong i.millis T < POWER_WAIT) :
    (coolTick g i).device = false ∧ (coolTick g i).deviceLastSetting = false
      ∧ (coolTick g i).shutDownTimer = T % ULONG_SIZE
      ∧ (coolTick g i).hyst = g.hyst ∧ (coolTick g i).failSafeTemp = g.failSafeTemp := by
  have hw' : ¬ subULong (i.millis % ULONG_SIZE) (T % ULONG_SIZE) ≥ POWER_WAIT := by
    rw [subULong_mod]; exact not_le.mpr hw
  unfold coolTick thermoStat
  simp only [hd, hl, ht]
  split_ifs <;> simp_all

theorem coolTicks_keep_off (T : Nat) (ins : List TickInput) :
    ∀ (g : Globals), g.device = false → g.deviceLastSetting = false →
      g.shutDownTimer = T % ULONG_SIZE →
      (∀ i ∈ ins, subULong i.millis T < POWER_WAIT) →
      (coolTicks g ins).device = false ∧ (coolTicks g ins).deviceLastSetting = false
        ∧ (coolTicks g ins).shutDownTimer = T % ULONG_SIZE
        ∧ (coolTicks g ins).hyst = g.hyst
        ∧ (coolTicks g ins).failSafeTemp = g.failSafeTemp := by
  induction ins with
  | nil => intro g hd hl ht _; exact ⟨hd, hl, ht, rfl, rfl⟩
  | cons i rest ih =>
    intro g hd hl ht hw
    obtain ⟨h1, h2, h3, h4, h5⟩ :=
      coolTick_keeps_off T g i hd hl ht (hw i (List.mem_cons_self i rest))
    have := ih (coolTick g i) h1 h2 h3 (fun j hj => hw j (List.mem_cons_of_mem i hj))
    simp only [coolTicks, List.foldl_cons] at this ⊢
    rw [h4, h5] at this
    exact this

/-- C2. Cool-mode anti-short-cycle (minimum off-time 300000 ms, `hyst > 0`). From any
state with `deviceLastSetting == 1` (in particular with `device == 1` too), a tick at clock value `T` in
Cool mode with power on and `failSafeTemp <= avgTemp <= setPoint` turns the device off
and records `T` as the shutdown time. After every tick of any following sequence of
Cool-mode ticks (any temperatures, set points and power settings) whose clock values
`t` all satisfy `t - T < 300000` (the unsigned 32-bit difference the code computes)
the device is off. A following Cool-mode, power-on tick with
`avgTemp >= setPoint + hyst`, `avgTemp >= failSafeTemp` and `t - T >= 300000` turns
the device on. -/
theorem cool_antiShortCycle (T : Nat) (g : Globals)
    (hl : g.deviceLastSetting = true)
    (hm : g.heatMode = true) (hp : g.powerSet = true) (hh : 0 < g.hyst)
    (hf : (g.failSafeTemp : ℚ) ≤ g.avgTemp) (hs : g.avgTemp ≤ g.setPoint) :
    (thermoStat T g).device = false
    ∧ (thermoStat T g).shutDownTimer = T % ULONG_SIZE
    ∧ ∀ (ins : List TickInput), (∀ i ∈ ins, subULong i.millis T < POWER_WAIT) →
        (∀ k : Nat, (coolTicks (thermoStat T g) (ins.take k)).device = false)
        ∧ ∀ (i : TickInput), i.powerSet = true → i.avgTemp ≥ i.setPoint + g.hyst →
            i.avgTemp ≥ (g.failSafeTemp : ℚ) → subULong i.millis T ≥ POWER_WAIT →
            (coolTick (coolTicks (thermoStat T g) ins) i).device = true := by
  have hn : ¬ g.avgTemp ≥ g.setPoint + g.hyst := by
    intro h; linarith
  have h0 : (thermoStat T g).device = false ∧ (thermoStat T g).deviceLastSetting = false
      ∧ (thermoStat T g).shutDownTimer = T % ULONG_SIZE
      ∧ (thermoStat T g).hyst = g.hyst
      ∧ (thermoStat T g).failSafeTemp = g.failSafeTemp := by
    have hf' : g.avgTemp ≥ (g.failSafeTemp : ℚ) := hf
    unfold thermoStat
    simp [hf', hp, hm, hn, hs, hl]
  obtain ⟨h1, h2, h3, h4, h5⟩ := h0
  refine ⟨h1, h3, ?_⟩
  intro ins hins
  constructor
  · intro k
    exact (coolTicks_keep_off T (ins.take k) (thermoStat T g) h1 h2 h3
      (fun j hj => hins j (List.mem_of_mem_take hj))).1
  · intro i hip hia hif hiw
    obtain ⟨_, _, k3, k4, k5⟩ := coolTicks_keep_off T ins (thermoStat T g) h1 h2 h3 hins
    have hiw' : subULong (i.millis % ULONG_SIZE) (T % ULONG_SIZE) ≥ POWER_WAIT := by
      rw [subULong_mod]; exact hiw
    rw [h4] at k4
    rw [h5] at k5
    generalize coolTicks (thermoStat T g) ins = G at k3 k4 k5 ⊢
    unfold coolTick thermoStat
    simp [k3, k4, k5, hip, hia, hif, hiw']

/-- Witness of C2 with `T = 1000000`: set point 70, hysteresis 0.5, off at `T` with
temperature 70; temperature 70.6 at `T + 100000` leaves the device off; temperature
70.6 at `T + 300001` turns it on. -/
theorem cool_antiShortCycle_witness :
    coolWitnessState.device = true
    ∧ (thermoStat 1000000 coolWitnessState).device = false
    ∧ (thermoStat 1000000 coolWitnessState).shutDownTimer = 1000000
    ∧ (coolTick (thermoStat 1000000 coolWitnessState) ⟨1100000, 70.6, 70, true⟩).device
        = false
    ∧ (coolTick (coolTick (thermoStat 1000000 coolWitnessState) ⟨1100000, 70.6, 70, true⟩)
        ⟨1300001, 70.6, 70, true⟩).device = true := by
  have H := cool_antiShortCycle 1000000 coolWitnessState rfl rfl rfl
    (by norm_num [coolWitnessState]) (by norm_num [coolWitnessState, initGlobals])
    (by norm_num [coolWitnessState])
  have hin : ∀ i ∈ [(⟨1100000, 70.6, 70, true⟩ : TickInput)],
      subULong i.millis 1000000 < POWER_WAIT := by
    intro i hi
    rw [List.mem_singleton] at hi
    subst hi
    norm_num [subULong, ULONG_SIZE, POWER_WAIT]
  refine ⟨rfl, H.1, ?_, ?_, ?_⟩
  · rw [H.2.1]; norm_num [ULONG_SIZE]
  · exact (H.2.2 _ hin).1 1
  · exact (H.2.2 _ hin).2 ⟨1300001, 70.6, 70, true⟩ rfl
      (by norm_num [coolWitnessState]) (by norm_num [coolWitnessState, initGlobals])
      (by norm_num [subULong, ULONG_SIZE, POWER_WAIT])

/-! ## Properties of the settings codec -/

theorem highByte_natCast (k : Nat) (h : k ≤ 65535) : (highByte (k : Int)).val = k / 256 := by
  unfold highByte
  have h1 : ((k : Int) / 256 % 256).toNat = k / 256 % 256 := by omega
  rw [h1]
  show k / 256 % 256 % 256 = k / 256
  omega

theorem lowByte_natCast (k : Nat) : (lowByte (k : Int)).val = k % 256 := by
  unfold lowByte
  have h1 : ((k : Int) % 256).toNat = k % 256 := by omega
  rw [h1]
  show k % 256 % 256 = k % 256
  omega

theorem word_highByte_lowByte (k : Nat) (h : k ≤ 65535) :
    word (highByte (k : Int)) (lowByte (k : Int)) = k := by
  unfold word
  rw [highByte_natCast k h, lowByte_natCast k]
  omega

theorem floatToInt_natCast (k : Nat) : floatToInt (k : ℚ) = (k : Int) := by
  unfold floatToInt
  have h : (0 : ℚ) ≤ (k : ℚ) := Nat.cast_nonneg k
  rw [if_pos h]
  exact Int.floor_natCast k

theorem byteToBool_boolToByte (b : Bool) : byteToBool (boolToByte b) = b := by
  cases b <;> decide

/-- C5. Absent-data detection. For every storage content whose byte 0 is not the valid
marker 0x99 (the erase marker 0x98 included), the startup load changes no global at
all, so none of `setPoint`, `powerSet`, `heatMode`, `storedSetPoint`,
`storedPowerState`, `storedHeatMode` is loaded and from the initial globals the
defaults 73.5, power off, Heat stay in effect. When byte 0 is 0x99, the three settings
and their shadows are loaded from bytes 5-6, 10 and 11, and nothing else changes. -/
theorem setup_load (g : Globals) (E : EEPROMClass) :
    (E.flash 0 ≠ 0x99 →
      (setup g E).1 = g
      ∧ ∀ A0 D2 : Int, (setup (initGlobals A0 D2) E).1.setPoint = 73.5
          ∧ (setup (initGlobals A0 D2) E).1.powerSet = false
          ∧ (setup (initGlobals A0 D2) E).1.heatMode = false)
    ∧ (E.flash 0 = 0x98 → (setup g E).1 = g)
    ∧ (E.flash 0 = 0x99 →
      (setup g E).1 =
        { g with
          storedSetPoint := ((E.flash 5).val * 256 + (E.flash 6).val : Nat)
          setPoint := (((E.flash 5).val * 256 + (E.flash 6).val : Nat) : ℚ) / 10
          storedPowerState := decide (E.flash 10 ≠ 0)
          powerSet := decide (E.flash 10 ≠ 0)
          storedHeatMode := decide (E.flash 11 ≠ 0)
          heatMode := decide (E.flash 11 ≠ 0) }) := by
  have hno : ∀ g' : Globals, E.flash 0 ≠ 0x99 → (setup g' E).1 = g' := by
    intro g' h
    have h' : ¬ E.flash 0 = 153 := h
    simp [setup, EEPROMClass.begin, EEPROMClass.read, ID_ADDR, EEPROM_ID, h']
  refine ⟨?_, ?_, ?_⟩
  · intro h
    refine ⟨hno g h, ?_⟩
    intro A0 D2
    rw [hno (initGlobals A0 D2) h]
    refine ⟨?_, rfl, rfl⟩
    norm_num [initGlobals]
  · intro h
    exact hno g (by rw [h]; decide)
  · intro h
    have h' : E.flash 0 = 153 := h
    simp [setup, EEPROMClass.begin, EEPROMClass.read, ID_ADDR, EEPROM_ID, h', setPointAddr,
      word, byteToBool]

/-- C7. Erase then decode. For every storage content, `eraseEEPROM` issues one write
of the erase marker 0x98 to byte 0 and a commit; it changes only byte 0, every other
byte (the set point bytes 5-6, the power byte 10 and the mode byte 11 included) is
unchanged, and the committed flash contents equal the buffer. The startup load applied
to the resulting storage finds no valid data: it changes no global, so from the
initial globals the defaults 73.5, power off, Heat stay in effect. -/
theorem eraseEEPROM_then_setup (E : EEPROMClass) :
    (eraseEEPROM E).calls = E.calls ++ [EEPROMCall.write 0 0x98, EEPROMCall.commit]
    ∧ (eraseEEPROM E).data 0 = 0x98
    ∧ (∀ a : Nat, a ≠ 0 → (eraseEEPROM E).data a = E.data a)
    ∧ (eraseEEPROM E).data 5 = E.data 5 ∧ (eraseEEPROM E).data 6 = E.data 6
    ∧ (eraseEEPROM E).data 10 = E.data 10 ∧ (eraseEEPROM E).data 11 = E.data 11
    ∧ (eraseEEPROM E).flash = (eraseEEPROM E).data
    ∧ (∀ g : Globals, (setup g (eraseEEPROM E)).1 = g)
    ∧ (∀ A0 D2 : Int, (setup (initGlobals A0 D2) (eraseEEPROM E)).1.setPoint = 73.5
        ∧ (setup (initGlobals A0 D2) (eraseEEPROM E)).1.powerSet = false
        ∧ (setup (initGlobals A0 D2) (eraseEEPROM E)).1.heatMode = false) := by
  have hother : ∀ a : Nat, a ≠ 0 → (eraseEEPROM E).data a = E.data a := by
    intro a ha
    simp [eraseEEPROM, EEPROMClass.write, EEPROMClass.commit, ID_ADDR, ha]
  have hset : ∀ g : Globals, (setup g (eraseEEPROM E)).1 = g := by
    intro g
    simp [setup, eraseEEPROM, EEPROMClass.begin, EEPROMClass.read, EEPROMClass.write,
      EEPROMClass.commit, ID_ADDR, EEPROM_ID, EEPROM_CLR]
  refine ⟨?_, ?_, hother, hother 5 (by decide), hother 6 (by decide), hother 10 (by decide),
    hother 11 (by decide), ?_, hset, ?_⟩
  · simp [eraseEEPROM, EEPROMClass.write, EEPROMClass.commit, ID_ADDR, EEPROM_CLR]
  · simp [eraseEEPROM, EEPROMClass.write, EEPROMClass.commit, ID_ADDR, EEPROM_CLR]
  · simp [eraseEEPROM, EEPROMClass.write, EEPROMClass.commit]
  · intro A0 D2
    rw [hset (initGlobals A0 D2)]
    refine ⟨?_, rfl, rfl⟩
    norm_num [initGlobals]

/-- Witness of C5: with the erase marker 0x98 in byte 0 the defaults 73.5, power off,
Heat stay although bytes 5-6, 10 and 11 hold 73.6, on, Cool; with the valid marker 0x99
these are loaded. -/
theorem setup_load_witness :
    ((setup (initGlobals 17 4) (storageWithMarker 0x98)).1.setPoint = 73.5
      ∧ (setup (initGlobals 17 4) (storageWithMarker 0x98)).1.powerSet = false
      ∧ (setup (initGlobals 17 4) (storageWithMarker 0x98)).1.heatMode = false)
    ∧ ((setup (initGlobals 17 4) (storageWithMarker 0x99)).1.setPoint = 73.6
      ∧ (setup (initGlobals 17 4) (storageWithMarker 0x99)).1.powerSet = true
      ∧ (setup (initGlobals 17 4) (storageWithMarker 0x99)).1.heatMode = true) := by
  refine ⟨((setup_load (initGlobals 17 4) (storageWithMarker 0x98)).1 (by decide)).2 17 4, ?_⟩
  have h := (setup_load (initGlobals 17 4) (storageWithMarker 0x99)).2.2 rfl
  rw [h]
  have h5 : ((storageWithMarker 0x99).flash 5).val = 2 := rfl
  have h6 : ((storageWithMarker 0x99).flash 6).val = 224 := rfl
  refine ⟨?_, rfl, rfl⟩
  simp only [h5, h6]
  norm_num

/-! ## Properties of the temperature smoother -/

theorem foldl_add_eq_sum (f : Nat → ℚ) (n : Nat) :
    (List.range n).foldl (fun sum i => sum + f i) 0 = ∑ i ∈ Finset.range n, f i := by
  induction n with
  | zero => simp
  | succ n ih => rw [List.range_succ, List.foldl_append, ih, Finset.sum_range_succ]; simp

theorem sum_rotate (f : Nat → ℚ) (N k : Nat) :
    ∑ j ∈ Finset.range N, f ((k + j) % N) = ∑ i ∈ Finset.range N, f i := by
  induction k with
  | zero =>
    apply Finset.sum_congr rfl
    intro j hj
    rw [Nat.zero_add, Nat.mod_eq_of_lt (Finset.mem_range.mp hj)]
  | succ k ih =>
    rw [← ih]
    have h1 := Finset.sum_range_succ (fun j => f ((k + j) % N)) N
    have h2 := Finset.sum_range_succ' (fun j => f ((k + j) % N)) N
    simp only [Nat.add_mod_right, Nat.add_zero] at h1 h2
    have h3 : ∑ j ∈ Finset.range N, f ((k + 1 + j) % N)
        = ∑ j ∈ Finset.range N, f ((k + (j + 1)) % N) := by
      apply Finset.sum_congr rfl
      intro j _
      rw [Nat.add_assoc, Nat.add_comm 1 j]
    rw [h3]
    linarith

theorem sum_getD (L : List ℚ) : ∑ j ∈ Finset.range L.length, L.getD j 0 = L.sum := by
  induction L with
  | nil => simp
  | cons a l ih =>
    rw [List.length_cons, Finset.sum_range_succ']
    simp only [List.getD_cons_succ, List.getD_cons_zero, List.sum_cons, ih]
    ring

theorem lastWindow_length (xs : List ℚ) : (lastWindow xs).length = TEMPARRAYSIZE := by
  simp [lastWindow]

theorem lastWindow_append (xs : List ℚ) (x : ℚ) :
    lastWindow (xs ++ [x]) = (lastWindow xs).drop 1 ++ [x] := by
  unfold lastWindow
  rw [List.length_append, List.length_singleton, ← List.append_assoc,
    List.drop_append_of_le_length (by simp [TEMPARRAYSIZE]), List.drop_drop]

theorem lastWindow_sum (xs : List ℚ) :
    (lastWindow xs).sum = (xs.drop (xs.length - min xs.length TEMPARRAYSIZE)).sum := by
  unfold lastWindow
  rw [List.drop_append_eq_append_drop, List.sum_append, List.length_replicate,
    List.drop_replicate, List.sum_replicate]
  have : xs.length - min xs.length TEMPARRAYSIZE = xs.length - TEMPARRAYSIZE := by omega
  rw [this]
  simp

theorem ringInv_init (A0 D2 : Int) : RingInv 0 [] (initGlobals A0 D2) := by
  refine ⟨rfl, ?_⟩
  intro j hj
  simp only [lastWindow, List.append_nil, List.length_nil, List.drop_zero]
  rw [List.getD_eq_getElem _ _ (by simpa using hj), List.getElem_replicate]
  rfl

theorem getD_drop_one (L : List ℚ) (j : Nat) : (L.drop 1).getD j 0 = L.getD (j + 1) 0 := by
  cases L with
  | nil => simp
  | cons a l => simp

theorem getTemp_fields (r : Int) (g : Globals) :
    (getTemp r g).tempArray
        = (fun i => if i = g.tempArrayCtr then degreesF r else g.tempArray i)
    ∧ (getTemp r g).avgTemp
        = averageArrayItem
            (fun i => if i = g.tempArrayCtr then degreesF r else g.tempArray i) TEMPARRAYSIZE
    ∧ (getTemp r g).tempArrayCtr
        = (if g.tempArrayCtr + 1 ≥ TEMPARRAYSIZE then 0 else g.tempArrayCtr + 1) := by
  unfold getTemp
  simp only []
  split_ifs <;> exact ⟨rfl, rfl, rfl⟩

theorem ringInv_getTemp (k : Nat) (xs : List ℚ) (g : Globals) (r : Int)
    (h : RingInv k xs g) :
    RingInv (k + 1) (xs ++ [degreesF r]) (getTemp r g)
    ∧ (getTemp r g).avgTemp = (lastWindow (xs ++ [degreesF r])).sum / TEMPARRAYSIZE := by
  obtain ⟨hc, ha⟩ := h
  obtain ⟨f1, f2, f3⟩ := getTemp_fields r g
  have hlen := lastWindow_length xs
  have hcontent : ∀ j, j < TEMPARRAYSIZE →
      (getTemp r g).tempArray ((k + 1 + j) % TEMPARRAYSIZE)
        = (lastWindow (xs ++ [degreesF r])).getD j 0 := by
    intro j hj
    rw [f1, lastWindow_append, hc]
    simp only [TEMPARRAYSIZE] at hj hlen ha ⊢
    by_cases hj' : j = 59
    · subst hj'
      have e : (k + 1 + 59) % 60 = k % 60 := by omega
      rw [if_pos e, List.getD_append_right _ _ _ _ (by simp [hlen])]
      simp [hlen]
    · have e : ¬ (k + 1 + j) % 60 = k % 60 := by omega
      have hj2 : j + 1 < 60 := by omega
      rw [if_neg e, List.getD_append _ _ _ _ (by simp [hlen]; omega), getD_drop_one,
        ← ha (j + 1) hj2]
      congr 2
      omega
  refine ⟨⟨?_, hcontent⟩, ?_⟩
  · rw [f3, hc]
    simp only [TEMPARRAYSIZE]
    split_ifs <;> omega
  · have hsum : ∑ i ∈ Finset.range TEMPARRAYSIZE, (getTemp r g).tempArray i
        = (lastWindow (xs ++ [degreesF r])).sum := by
      rw [← sum_rotate _ TEMPARRAYSIZE (k + 1), ← sum_getD,
        lastWindow_length (xs ++ [degreesF r])]
      exact Finset.sum_congr rfl (fun j hj => hcontent j (Finset.mem_range.mp hj))
    rw [f2, ← f1]
    unfold averageArrayItem
    simp only []
    rw [foldl_add_eq_sum, hsum]

theorem ringInv_getTemps (A0 D2 : Int) (rs : List Int) :
    RingInv rs.length (rs.map degreesF) (getTemps (initGlobals A0 D2) rs)
    ∧ (getTemps (initGlobals A0 D2) rs).avgTemp
        = (lastWindow (rs.map degreesF)).sum / TEMPARRAYSIZE := by
  induction rs using List.reverseRecOn with
  | nil =>
    refine ⟨ringInv_init A0 D2, ?_⟩
    simp [getTemps, initGlobals, lastWindow]
  | append_singleton rs r ih =>
    have hstep := ringInv_getTemp rs.length (rs.map degreesF)
      (getTemps (initGlobals A0 D2) rs) r ih.1
    have e : getTemps (initGlobals A0 D2) (rs ++ [r])
        = getTemp r (getTemps (initGlobals A0 D2) rs) := by
      simp [getTemps, List.foldl_append]
    rw [e, List.map_append, List.length_append]
    exact hstep

/-- C9. Smoother ring semantics (N = `TEMPARRAYSIZE` = 60, exact arithmetic). Starting
from the initial globals (zero buffer, counter 0), after `getTemp` has been called once
per raw reading of any sequence of `k` readings, the average it computed last equals
the sum of the last `min k N` readings (in degrees Fahrenheit) divided by N. Hence for
`k >= N` it is the arithmetic mean of the last N readings, and for `k < N` it is the
sum of the `k` readings and of `N - k` zeros, divided by N. -/
theorem getTemp_ring_average (A0 D2 : Int) (rs : List Int) :
    (getTemps (initGlobals A0 D2) rs).avgTemp
      = ((rs.map degreesF).drop (rs.length - min rs.length TEMPARRAYSIZE)).sum / TEMPARRAYSIZE
    ∧ (rs.length ≥ TEMPARRAYSIZE →
        ((rs.map degreesF).drop (rs.length - TEMPARRAYSIZE)).length = TEMPARRAYSIZE
        ∧ (getTemps (initGlobals A0 D2) rs).avgTemp
          = ((rs.map degreesF).drop (rs.length - TEMPARRAYSIZE)).sum / TEMPARRAYSIZE)
    ∧ (rs.length < TEMPARRAYSIZE →
        (getTemps (initGlobals A0 D2) rs).avgTemp
          = ((rs.map degreesF).sum
              + (List.replicate (TEMPARRAYSIZE - rs.length) (0 : ℚ)).sum) / TEMPARRAYSIZE) := by
  have h := (ringInv_getTemps A0 D2 rs).2
  rw [lastWindow_sum, List.length_map] at h
  refine ⟨h, ?_, ?_⟩
  · intro hk
    have e : rs.length - min rs.length TEMPARRAYSIZE = rs.length - TEMPARRAYSIZE := by omega
    rw [e] at h
    refine ⟨?_, h⟩
    rw [List.length_drop, List.length_map]
    omega
  · intro hk
    have e : rs.length - min rs.length TEMPARRAYSIZE = 0 := by omega
    rw [e, List.drop_zero] at h
    rw [h]
    simp

/-- Witness of C9: after a reading of 240 and sixty readings of 250 the average is the
temperature of the reading 250: the first reading has left the window. -/
theorem getTemp_ring_average_witness :
    sampleReadings.length ≥ TEMPARRAYSIZE
    ∧ (getTemps (initGlobals 17 4) sampleReadings).avgTemp = degreesF 250 := by
  have hlen : sampleReadings.length ≥ TEMPARRAYSIZE := by decide
  refine ⟨hlen, ?_⟩
  rw [((getTemp_ring_average 17 4 sampleReadings).2.1 hlen).2]
  have e : (sampleReadings.map degreesF).drop (sampleReadings.length - TEMPARRAYSIZE)
      = List.replicate 60 (degreesF 250) := by
    simp [sampleReadings, TEMPARRAYSIZE]
  rw [e, List.sum_replicate]
  simp [TEMPARRAYSIZE]

/-! ## Properties of the output latch -/

/-- C10. Output latch suppression. For every state, `sendOutput` issues a pin write
exactly when `device != lastDeviceState`, the write is then the single write of the
value `device` to the control pin, and afterwards `lastDeviceState == device` (and
`device` is unchanged). Consequently, for every value `d` and every state with
`device == d` and `lastDeviceState != d`, the first call writes `d` once, a second call
with `device == d` (right after the first, or in any state that has `device == d` and
the `lastDeviceState` the first call left) writes nothing, and the two calls issue
exactly one write in total. -/
theorem sendOutput_latch (g : Globals) :
    ((sendOutput g).2 ≠ [] ↔ g.device ≠ g.lastDeviceState)
    ∧ (g.device ≠ g.lastDeviceState → (sendOutput g).2 = [(g.heatCtrlPin, g.device)])
    ∧ (g.device = g.lastDeviceState → (sendOutput g).2 = [])
    ∧ (sendOutput g).1.lastDeviceState = g.device
    ∧ (sendOutput g).1.device = g.device
    ∧ (∀ d : Bool, g.lastDeviceState ≠ d → g.device = d →
        (sendOutput g).2 = [(g.heatCtrlPin, d)]
        ∧ (sendOutput (sendOutput g).1).2 = []
        ∧ (∀ g₂ : Globals, g₂.device = d →
            g₂.lastDeviceState = (sendOutput g).1.lastDeviceState → (sendOutput g₂).2 = [])
        ∧ ((sendOutput g).2 ++ (sendOutput (sendOutput g).1).2).length = 1) := by
  refine ⟨?_, ?_, ?_, rfl, rfl, ?_⟩
  · by_cases h : g.device = g.lastDeviceState <;> simp [sendOutput, h]
  · intro h; simp [sendOutput, h]
  · intro h; simp [sendOutput, h]
  · intro d hl hd
    have hne : ¬ g.device = g.lastDeviceState := by
      rw [hd]; exact fun h => hl h.symm
    have hne' : ¬ d = g.lastDeviceState := fun h => hl h.symm
    refine ⟨?_, ?_, ?_, ?_⟩
    · simp [sendOutput, hne', hd]
    · simp [sendOutput]
    · intro g₂ h₁ h₂
      have : g₂.device = g₂.lastDeviceState := by
        rw [h₂, h₁]; exact hd.symm
      simp [sendOutput, this]
    · simp [sendOutput, hne]

/-- Witness of C10: device requested on while the pin was last written off: the first
call writes `true` to pin 4, the second call writes nothing. -/
theorem sendOutput_latch_witness :
    (sendOutput latchState).2 = [(4, true)]
    ∧ (sendOutput (sendOutput latchState).1).2 = []
    ∧ ((sendOutput latchState).2 ++ (sendOutput (sendOutput latchState).1).2).length = 1 := by
  have H := (sendOutput_latch latchState).2.2.2.2.2 true (by decide) rfl
  exact ⟨H.1, H.2.1, H.2.2.2⟩

/-! ## The Cool-mode rule and the shutdown timer -/

theorem subULong_mod_left (a b : Nat) : subULong (a % ULONG_SIZE) b = subULong a b := by
  unfold subULong
  rw [Nat.mod_mod]

theorem subULong_eq_int_mod (a b : Nat) :
    ((subULong a b : Nat) : Int) = ((a : Int) - (b : Int)) % 2 ^ 32 := by
  unfold subULong ULONG_SIZE
  omega

theorem subULong_add (t₀ e : Nat) (he : e < 2 ^ 32) :
    subULong ((t₀ + e) % ULONG_SIZE) t₀ = e := by
  unfold subULong ULONG_SIZE
  omega

/-- A tick with power off and no fail-safe, from a state whose last setting was on,
turns the device off and records the clock value as the shutdown time, in every mode. -/
theorem thermoStat_powerOff_starts_timer (millis : Nat) (g : Globals)
    (hl : g.deviceLastSetting = true) (hp : g.powerSet = false)
    (hf : g.avgTemp ≥ (g.failSafeTemp : ℚ)) :
    (thermoStat millis g).device = false
    ∧ (thermoStat millis g).shutDownTimer = millis % ULONG_SIZE
    ∧ (thermoStat millis g).deviceLastSetting = false := by
  unfold thermoStat
  simp [hf, hp, hl]

/-- A tick in which the fail-safe triggers turns the device off and changes nothing
else: the shutdown time and the last setting stay as they were. -/
theorem thermoStat_failSafe_frame (millis : Nat) (g : Globals)
    (h : g.avgTemp < (g.failSafeTemp : ℚ)) :
    thermoStat millis g = { g with device := false } := by
  have hn : ¬ g.avgTemp ≥ (g.failSafeTemp : ℚ) := not_le.mpr h
  unfold thermoStat
  simp only [hn, if_false]
  cases hd : g.device
  · simp only [Bool.false_eq_true, if_false]
    cases g
    simp_all
  · simp

/-- C12 fails on the fail-safe path. In the Heat-mode state `sensorFailState` the
device is requested on (`device == 1`, `deviceLastSetting == 1`) and the average
temperature 0.5 is below the fail-safe temperature 1. The tick at clock value 1000000
turns the device off but leaves `shutDownTimer` at 0, not at 1000000, and leaves
`deviceLastSetting` at 1. From the same state with a valid temperature and power off,
the tick does record 1000000 as the shutdown time. -/
theorem thermoStat_failSafe_keeps_timer :
    sensorFailState.device = true
    ∧ sensorFailState.deviceLastSetting = true
    ∧ sensorFailState.avgTemp < (sensorFailState.failSafeTemp : ℚ)
    ∧ (thermoStat 1000000 sensorFailState).device = false
    ∧ (thermoStat 1000000 sensorFailState).shutDownTimer = 0
    ∧ (thermoStat 1000000 sensorFailState).shutDownTimer ≠ 1000000
    ∧ (thermoStat 1000000 sensorFailState).deviceLastSetting = true
    ∧ (thermoStat 1000000
        { sensorFailState with avgTemp := 60, powerSet := false }).shutDownTimer
        = 1000000 := by
  have hlt : sensorFailState.avgTemp < (sensorFailState.failSafeTemp : ℚ) := by
    norm_num [sensorFailState, initGlobals]
  have hfr := thermoStat_failSafe_frame 1000000 sensorFailState hlt
  have hoff := thermoStat_powerOff_starts_timer 1000000
    { sensorFailState with avgTemp := 60, powerSet := false } rfl rfl
    (by norm_num [sensorFailState, initGlobals])
  refine ⟨rfl, rfl, hlt, ?_, ?_, ?_, ?_, ?_⟩
  · rw [hfr]
  · rw [hfr]; rfl
  · rw [hfr]; decide
  · rw [hfr]; rfl
  · rw [hoff.2.1]; norm_num [ULONG_SIZE]

/-! ## Saving on a store that was never written -/

theorem setup_no_marker (g : Globals) (E : EEPROMClass) (h : E.flash 0 ≠ 0x99) :
    setup g E = (g, E.begin) := by
  have h' : ¬ E.flash 0 = 153 := h
  simp [setup, EEPROMClass.begin, EEPROMClass.read, ID_ADDR, EEPROM_ID, h']

theorem floatToInt_default_setPoint (A0 D2 : Int) :
    floatToInt ((initGlobals A0 D2).setPoint * 10) = 735 := by
  have h : (initGlobals A0 D2).setPoint * 10 = ((735 : Nat) : ℚ) := by
    norm_num [initGlobals]
  rw [h, floatToInt_natCast]
  rfl

/-- When only the set point differs from its shadow, `writeEEPROM` writes bytes 5 and
6 and the marker, commits, and reports the set point alone as updated. -/
theorem writeEEPROM_setPoint_only (g : Globals) (E : EEPROMClass)
    (c1 : (g.storedSetPoint : ℚ) ≠ g.setPoint * 10)
    (c2 : g.storedPowerState = g.powerSet) (c3 : g.storedHeatMode = g.heatMode) :
    (writeEEPROM g E).2.1.calls
        = E.calls ++ [EEPROMCall.write 5 (highByte (floatToInt (g.setPoint * 10))),
            EEPROMCall.write 6 (lowByte (floatToInt (g.setPoint * 10))),
            EEPROMCall.write 0 0x99, EEPROMCall.commit]
    ∧ (writeEEPROM g E).2.2 = ⟨true, false, false⟩
    ∧ (writeEEPROM g E).2.1.flash
        = (fun a => if a = 0 then EEPROM_ID
            else if a = 6 then lowByte (floatToInt (g.setPoint * 10))
            else if a = 5 then highByte (floatToInt (g.setPoint * 10))
            else E.data a) := by
  simp [writeEEPROM, EEPROMClass.write, EEPROMClass.commit, ID_ADDR, EEPROM_ID, setPointAddr,
    c1, c2, c3]

/-- C13. Save on a never-written store does not persist unchanged flags. For every
initial storage content whose byte 0 is not 0x99 and whose bytes 10 and 11 are nonzero
(0xFF for instance): the startup load finds no data and leaves the initial globals
(defaults 73.5, power off, Heat, shadows zero); `writeEEPROM` then writes only the set
point bytes 5 and 6 (2 and 223, that is 735) and the valid marker, commits, and
reports the set point alone as updated, so bytes 10 and 11 stay as they were; the
startup load on the resulting storage yields set point 73.5, `powerSet` on and
`heatMode` Cool, different from the power off and Heat that were saved. -/
theorem save_on_unwritten_store (A0 D2 : Int) (E : EEPROMClass)
    (h0 : E.flash 0 ≠ 0x99) (h10 : E.flash 10 ≠ 0) (h11 : E.flash 11 ≠ 0) :
    (setup (initGlobals A0 D2) E).1 = initGlobals A0 D2
    ∧ (writeEEPROM (setup (initGlobals A0 D2) E).1 (setup (initGlobals A0 D2) E).2).2.1.calls
        = E.calls ++ [EEPROMCall.write 5 2, EEPROMCall.write 6 223,
            EEPROMCall.write 0 0x99, EEPROMCall.commit]
    ∧ (writeEEPROM (setup (initGlobals A0 D2) E).1 (setup (initGlobals A0 D2) E).2).2.2
        = ⟨true, false, false⟩
    ∧ (writeEEPROM (setup (initGlobals A0 D2) E).1 (setup (initGlobals A0 D2) E).2).2.1.flash 10
        = E.flash 10
    ∧ (writeEEPROM (setup (initGlobals A0 D2) E).1 (setup (initGlobals A0 D2) E).2).2.1.flash 11
        = E.flash 11
    ∧ (setup (initGlobals A0 D2)
        (writeEEPROM (setup (initGlobals A0 D2) E).1
          (setup (initGlobals A0 D2) E).2).2.1).1.setPoint = 73.5
    ∧ (setup (initGlobals A0 D2)
        (writeEEPROM (setup (initGlobals A0 D2) E).1
          (setup (initGlobals A0 D2) E).2).2.1).1.powerSet = true
    ∧ (setup (initGlobals A0 D2)
        (writeEEPROM (setup (initGlobals A0 D2) E).1
          (setup (initGlobals A0 D2) E).2).2.1).1.heatMode = true
    ∧ (setup (initGlobals A0 D2) E).1.powerSet = false
    ∧ (setup (initGlobals A0 D2) E).1.heatMode = false := by
  rw [setup_no_marker (initGlobals A0 D2) E h0]
  have hc1 : ((initGlobals A0 D2).storedSetPoint : ℚ) ≠ (initGlobals A0 D2).setPoint * 10 := by
    norm_num [initGlobals]
  have hfl := floatToInt_default_setPoint A0 D2
  have hhi : highByte 735 = 2 := by decide
  have hlo : lowByte 735 = 223 := by decide
  have hw : word 2 223 = 735 := by decide
  obtain ⟨hcalls, hflags, hflash⟩ :=
    writeEEPROM_setPoint_only (initGlobals A0 D2) E.begin hc1 rfl rfl
  rw [hfl, hhi, hlo] at hcalls hflash
  have hbd : E.begin.data = E.flash := rfl
  have hbc : E.begin.calls = E.calls := rfl
  rw [hbc] at hcalls
  rw [hbd] at hflash
  have hb10 : byteToBool (E.flash 10) = true := by simp [byteToBool, h10]
  have hb11 : byteToBool (E.flash 11) = true := by simp [byteToBool, h11]
  dsimp only
  generalize writeEEPROM (initGlobals A0 D2) E.begin = W at hcalls hflags hflash ⊢
  refine ⟨rfl, hcalls, hflags, ?_, ?_, ?_, ?_, ?_, rfl, rfl⟩
  · rw [hflash]; simp
  · rw [hflash]; simp
  · simp only [setup, EEPROMClass.begin, EEPROMClass.read, hflash, ID_ADDR, setPointAddr]
    norm_num [hw, EEPROM_ID]
  · simp only [setup, EEPROMClass.begin, EEPROMClass.read, hflash, ID_ADDR, setPointAddr]
    simp [EEPROM_ID, hb10]
  · simp only [setup, EEPROMClass.begin, EEPROMClass.read, hflash, ID_ADDR, setPointAddr]
    simp [EEPROM_ID, hb11]

/-- Witness of C13: a never-written EEPROM, every byte 0xFF. After boot, save and
reboot the settings are 73.5, power on, Cool, although power off and Heat were
saved. -/
theorem save_on_unwritten_store_witness :
    (setup (initGlobals 17 4)
        (writeEEPROM (setup (initGlobals 17 4) blankStorage).1
          (setup (initGlobals 17 4) blankStorage).2).2.1).1.powerSet = true
    ∧ (setup (initGlobals 17 4)
        (writeEEPROM (setup (initGlobals 17 4) blankStorage).1
          (setup (initGlobals 17 4) blankStorage).2).2.1).1.heatMode = true
    ∧ (setup (initGlobals 17 4) blankStorage).1.powerSet = false
    ∧ (setup (initGlobals 17 4) blankStorage).1.heatMode = false := by
  have H := save_on_unwritten_store 17 4 blankStorage (by decide) (by decide) (by decide)
  exact ⟨H.2.2.2.2.2.2.1, H.2.2.2.2.2.2.2.1, H.2.2.2.2.2.2.2.2.1, H.2.2.2.2.2.2.2.2.2⟩

/-! ## Rounding to binary32 -/

namespace Binary32

theorem roundHalfEven_of_abs_lt (q : ℚ) (M : Int) (h : |q - (M : ℚ)| < 1 / 2) :
    roundHalfEven q = M := by
  rw [abs_lt] at h
  obtain ⟨h1, h2⟩ := h
  unfold roundHalfEven
  simp only []
  by_cases hq : (M : ℚ) ≤ q
  · have hf : ⌊q⌋ = M := by
      rw [Int.floor_eq_iff]
      constructor
      · exact hq
      · linarith
    rw [hf, if_pos (by linarith)]
  · have hq' : q < (M : ℚ) := not_le.mp hq
    have hf : ⌊q⌋ = M - 1 := by
      rw [Int.floor_eq_iff]
      push_cast
      constructor <;> linarith
    rw [hf]
    push_cast
    rw [if_neg (by linarith), if_pos (by linarith)]
    ring

theorem roundHalfEven_of_abs_le_even (q : ℚ) (M : Int) (h : |q - (M : ℚ)| ≤ 1 / 2)
    (hM : M % 2 = 0) : roundHalfEven q = M := by
  rcases lt_or_eq_of_le h with h' | h'
  · exact roundHalfEven_of_abs_lt q M h'
  · unfold roundHalfEven
    simp only []
    by_cases hq : (M : ℚ) ≤ q
    · have hq2 : q = (M : ℚ) + 1 / 2 := by
        rw [abs_of_nonneg (by linarith)] at h'
        linarith
      have hf : ⌊q⌋ = M := by
        rw [Int.floor_eq_iff]
        constructor <;> linarith
      rw [hf, if_neg (by linarith), if_neg (by linarith), if_pos hM]
    · have hq' : q < (M : ℚ) := not_le.mp hq
      have hq2 : q = (M : ℚ) - 1 / 2 := by
        rw [abs_of_neg (by linarith)] at h'
        linarith
      have hf : ⌊q⌋ = M - 1 := by
        rw [Int.floor_eq_iff]
        push_cast
        constructor <;> linarith
      have hodd : ¬ (M - 1) % 2 = 0 := by omega
      rw [hf]
      push_cast
      rw [if_neg (by linarith), if_neg (by linarith), if_neg hodd]
      ring

theorem exponent_of_binade (x : ℚ) (k : Int) (hk : -126 ≤ k)
    (h1 : (2 : ℚ) ^ k ≤ |x|) (h2 : |x| < (2 : ℚ) ^ (k + 1)) : exponent x = k := by
  have hpos : 0 < |x| := lt_of_lt_of_le (zpow_pos (by norm_num) k) h1
  have hlog : Int.log 2 |x| = k := by
    apply le_antisymm
    · have := (Int.lt_zpow_iff_log_lt (b := 2) (by norm_num) hpos (x := k + 1)).mp
        (by exact_mod_cast h2)
      omega
    · exact (Int.zpow_le_iff_le_log (b := 2) (by norm_num) hpos).mp (by exact_mod_cast h1)
  unfold exponent
  rw [hlog]
  exact max_eq_left hk

/-- A value in the binade of exponent `k` that lies within half a spacing of the
binary32 value `M * 2 ^ (k - 23)` is rounded to it; at exactly half a spacing it is
rounded to it when `M` is even. -/
theorem round_of_binade (x : ℚ) (k M : Int) (hk : -126 ≤ k)
    (h1 : (2 : ℚ) ^ k ≤ |x|) (h2 : |x| < (2 : ℚ) ^ (k + 1))
    (h3 : |x / (2 : ℚ) ^ (k - 23) - (M : ℚ)| < 1 / 2
      ∨ (|x / (2 : ℚ) ^ (k - 23) - (M : ℚ)| ≤ 1 / 2 ∧ M % 2 = 0)) :
    round x = (M : ℚ) * (2 : ℚ) ^ (k - 23) := by
  unfold round
  simp only []
  rw [exponent_of_binade x k hk h1 h2]
  rcases h3 with h3 | ⟨h3, hM⟩
  · rw [roundHalfEven_of_abs_lt _ M h3]
  · rw [roundHalfEven_of_abs_le_even _ M h3 hM]

/-- The same for a positive value strictly within half a spacing. -/
theorem round_pos_of_binade (x : ℚ) (k M : Int) (hk : -126 ≤ k)
    (h1 : (2 : ℚ) ^ k ≤ x) (h2 : x < (2 : ℚ) ^ (k + 1))
    (h3 : |x / (2 : ℚ) ^ (k - 23) - (M : ℚ)| < 1 / 2) :
    round x = (M : ℚ) * (2 : ℚ) ^ (k - 23) := by
  have hx : 0 ≤ x := le_trans (le_of_lt (zpow_pos (by norm_num) k)) h1
  exact round_of_binade x k M hk (by rw [abs_of_nonneg hx]; exact h1)
    (by rw [abs_of_nonneg hx]; exact h2) (Or.inl h3)

theorem round_scaled (y : ℚ) (t M : Int) (ht : -149 ≤ t)
    (h1 : (2 : ℚ) ^ (23 : ℕ) ≤ y) (h2 : y < (2 : ℚ) ^ (24 : ℕ))
    (h3 : |y - (M : ℚ)| < 1 / 2 ∨ (|y - (M : ℚ)| ≤ 1 / 2 ∧ M % 2 = 0)) :
    round (y * (2 : ℚ) ^ t) = (M : ℚ) * (2 : ℚ) ^ t := by
  have hu : (0 : ℚ) < (2 : ℚ) ^ t := zpow_pos (by norm_num) t
  have hy : (0 : ℚ) < y := lt_of_lt_of_le (by norm_num) h1
  have habs : |y * (2 : ℚ) ^ t| = y * (2 : ℚ) ^ t := abs_of_pos (mul_pos hy hu)
  have e23 : (2 : ℚ) ^ (t + 23) = (2 : ℚ) ^ (23 : ℕ) * (2 : ℚ) ^ t := by
    rw [zpow_add₀ (by norm_num : (2 : ℚ) ≠ 0), mul_comm]
    norm_cast
  have e24 : (2 : ℚ) ^ (t + 23 + 1) = (2 : ℚ) ^ (24 : ℕ) * (2 : ℚ) ^ t := by
    have : t + 23 + 1 = t + 24 := by ring
    rw [this, zpow_add₀ (by norm_num : (2 : ℚ) ≠ 0), mul_comm]
    norm_cast
  have hk : t + 23 - 23 = t := by ring
  have hdiv : y * (2 : ℚ) ^ t / (2 : ℚ) ^ t = y := by
    field_simp
  have := round_of_binade (y * (2 : ℚ) ^ t) (t + 23) M (by omega)
    (by rw [habs, e23]; exact mul_le_mul_of_nonneg_right h1 (le_of_lt hu))
    (by rw [habs, e24]; exact mul_lt_mul_of_pos_right h2 hu)
    (by rw [hk, hdiv]; exact h3)
  rw [hk] at this
  exact this


theorem round_tenth_core (K : ℕ) (t : Int) (ht : -149 ≤ t)
    (h1 : 10 * 2 ^ 23 ≤ 16 * K) (h2 : 16 * K < 10 * 2 ^ 24) :
    round (round ((16 * K : ℕ) / 10 * (2 : ℚ) ^ t) * 10) = (16 * K : ℕ) * (2 : ℚ) ^ t := by
  obtain ⟨M, hM⟩ : ∃ M : ℕ, M = (16 * K + 5) / 10 := ⟨_, rfl⟩
  have hM1 : 16 * K < 10 * M + 5 := by omega
  have hM2 : 10 * M < 16 * K + 5 := by omega
  have hM3 : 10 * M ≤ 16 * K + 4 := by omega
  have hM4 : 16 * K ≤ 10 * M + 4 := by omega
  have c1 : ((16 * K : ℕ) : ℚ) < 10 * (M : ℚ) + 5 := by exact_mod_cast hM1
  have c2 : 10 * (M : ℚ) < ((16 * K : ℕ) : ℚ) + 5 := by exact_mod_cast hM2
  have c3 : 10 * (M : ℚ) ≤ ((16 * K : ℕ) : ℚ) + 4 := by exact_mod_cast hM3
  have c4 : ((16 * K : ℕ) : ℚ) ≤ 10 * (M : ℚ) + 4 := by exact_mod_cast hM4
  have c5 : (10 * 2 ^ 23 : ℚ) ≤ ((16 * K : ℕ) : ℚ) := by exact_mod_cast h1
  have c6 : ((16 * K : ℕ) : ℚ) < (10 * 2 ^ 24 : ℚ) := by exact_mod_cast h2
  have c7 : ((16 * K : ℕ) : ℚ) = 16 * (K : ℚ) := by push_cast; ring
  have r1 : round ((16 * K : ℕ) / 10 * (2 : ℚ) ^ t) = ((M : Int) : ℚ) * (2 : ℚ) ^ t := by
    apply round_scaled _ t (M : Int) ht
    · linarith
    · linarith
    · left
      rw [abs_lt]
      push_cast
      constructor <;> linarith
  rw [r1]
  have hu : (2 : ℚ) ^ t ≠ 0 := zpow_ne_zero t (by norm_num)
  by_cases hs : 10 * M < 2 ^ 27
  · have c8 : 10 * (M : ℚ) < 2 ^ 27 := by exact_mod_cast hs
    have e : ((M : Int) : ℚ) * (2 : ℚ) ^ t * 10
        = (10 * (M : ℚ) / 8) * (2 : ℚ) ^ (t + 3) := by
      rw [zpow_add₀ (by norm_num : (2 : ℚ) ≠ 0)]
      push_cast
      norm_num
      ring
    rw [e, round_scaled _ (t + 3) ((2 * K : ℕ) : Int) (by omega)]
    · rw [zpow_add₀ (by norm_num : (2 : ℚ) ≠ 0)]
      push_cast
      norm_num
      ring
    · linarith
    · linarith
    · right
      constructor
      · rw [abs_le]
        push_cast
        constructor <;> linarith
      · omega
  · have hs' : 2 ^ 27 ≤ 10 * M := not_lt.mp hs
    have c8 : (2 : ℚ) ^ 27 ≤ 10 * (M : ℚ) := by exact_mod_cast hs'
    have e : ((M : Int) : ℚ) * (2 : ℚ) ^ t * 10
        = (10 * (M : ℚ) / 16) * (2 : ℚ) ^ (t + 4) := by
      rw [zpow_add₀ (by norm_num : (2 : ℚ) ≠ 0)]
      push_cast
      norm_num
      ring
    rw [e, round_scaled _ (t + 4) ((K : ℕ) : Int) (by omega)]
    · rw [zpow_add₀ (by norm_num : (2 : ℚ) ≠ 0)]
      push_cast
      norm_num
      ring
    · linarith
    · linarith
    · left
      rw [abs_lt]
      push_cast
      constructor <;> linarith


theorem round_zero : round 0 = 0 := by
  unfold round
  simp only [zero_div]
  rw [roundHalfEven_of_abs_lt 0 0 (by norm_num)]
  simp

theorem round_one : round 1 = 1 := by
  rw [round_pos_of_binade 1 0 8388608 (by norm_num) (by norm_num) (by norm_num)
    (by norm_num)]
  norm_num

/-- The binary32 value of the initial hysteresis 0.05 is 13421773 / 2^28. -/
theorem round_hyst : round 0.05 = 13421773 / 268435456 := by
  rw [round_pos_of_binade 0.05 (-5) 13421773 (by norm_num) (by norm_num) (by norm_num)
    (by rw [abs_lt]; norm_num)]
  norm_num

theorem round_setPoint : round 73.50 = 73.5 := by
  rw [round_pos_of_binade 73.50 6 9633792 (by norm_num) (by norm_num) (by norm_num)
    (by norm_num)]
  norm_num

/-- A natural number written as a multiple of a power of two. -/
theorem natCast_eq_scaled (n j c : ℕ) (hj : j ≤ c) :
    (n : ℚ) = ((n * 2 ^ (c - j) : ℕ) : ℚ) * (2 : ℚ) ^ ((j : Int) - (c : Int)) := by
  have h2 : (2 : ℚ) ≠ 0 := by norm_num
  have e : ((c - j : ℕ) : Int) = (c : Int) - (j : Int) := by omega
  have : ((2 : ℚ) ^ (c - j)) * (2 : ℚ) ^ ((j : Int) - (c : Int)) = 1 := by
    rw [← zpow_natCast, e, ← zpow_add₀ h2]
    simp
  push_cast
  rw [mul_assoc, this, mul_one]

/-- For every integer `n` from 0 to 65535 the binary32 product of the binary32 value
nearest to `n / 10` and 10 is exactly `n`. -/
theorem round_tenth_mul_ten (n : ℕ) (hn : n ≤ 65535) :
    round (round ((n : ℚ) / 10) * 10) = n := by
  rcases Nat.eq_zero_or_pos n with h0 | hpos
  · subst h0
    simp [round_zero]
  · obtain ⟨j, hj⟩ : ∃ j : ℕ, j = Nat.log 2 (16 * n / 10) := ⟨_, rfl⟩
    have hne : 16 * n / 10 ≠ 0 := by omega
    have hlo : 2 ^ j ≤ 16 * n / 10 := by rw [hj]; exact Nat.pow_log_le_self 2 hne
    have hhi : 16 * n / 10 < 2 ^ (j + 1) := by
      rw [hj]; exact Nat.lt_pow_succ_log_self (by norm_num) _
    have hj16 : j ≤ 16 := by
      by_contra hcon
      have h17 : 17 ≤ j := by omega
      have : 2 ^ 17 ≤ 2 ^ j := Nat.pow_le_pow_right (by norm_num) h17
      have : (2 : ℕ) ^ 17 = 131072 := by norm_num
      omega
    obtain ⟨K, hK⟩ : ∃ K : ℕ, K = n * 2 ^ (23 - j) := ⟨_, rfl⟩
    have hpow : 2 ^ j * 2 ^ (23 - j) = 2 ^ 23 := by
      rw [← pow_add]; congr 1; omega
    have hN : n * 2 ^ (27 - j) = 16 * K := by
      have : 27 - j = 4 + (23 - j) := by omega
      rw [hK, this, pow_add]; ring
    have e1 : 2 ^ (j + 1) = 2 * 2 ^ j := by ring
    have hlo' : 10 * 2 ^ j ≤ 16 * n := by omega
    have hhi' : 16 * n < 20 * 2 ^ j := by omega
    have h1 : 10 * 2 ^ 23 ≤ 16 * K := by
      calc 10 * 2 ^ 23 = (10 * 2 ^ j) * 2 ^ (23 - j) := by rw [mul_assoc, hpow]
        _ ≤ (16 * n) * 2 ^ (23 - j) := Nat.mul_le_mul_right _ hlo'
        _ = 16 * K := by rw [hK]; ring
    have h2 : 16 * K < 10 * 2 ^ 24 := by
      calc 16 * K = (16 * n) * 2 ^ (23 - j) := by rw [hK]; ring
        _ < (20 * 2 ^ j) * 2 ^ (23 - j) :=
            Nat.mul_lt_mul_of_pos_right hhi' (pow_pos (by norm_num) _)
        _ = 10 * 2 ^ 24 := by rw [mul_assoc, hpow]; norm_num
    have hsc := natCast_eq_scaled n j 27 (by omega)
    rw [hN] at hsc
    simp only [Nat.cast_ofNat] at hsc
    have hcore := round_tenth_core K ((j : Int) - 27) (by omega) h1 h2
    have e10 : (n : ℚ) / 10 = ((16 * K : ℕ) : ℚ) / 10 * (2 : ℚ) ^ ((j : Int) - 27) := by
      rw [hsc]
      push_cast
      ring
    rw [e10, hcore]
    exact hsc.symm

/-- Every integer from 0 to 65535 is a binary32 value. -/
theorem round_natCast (n : ℕ) (hn : n ≤ 65535) : round (n : ℚ) = n := by
  rcases Nat.eq_zero_or_pos n with h0 | hpos
  · subst h0
    simp [round_zero]
  · obtain ⟨k, hk⟩ : ∃ k : ℕ, k = Nat.log 2 n := ⟨_, rfl⟩
    have hne : n ≠ 0 := by omega
    have hlo : 2 ^ k ≤ n := by rw [hk]; exact Nat.pow_log_le_self 2 hne
    have hhi : n < 2 ^ (k + 1) := by
      rw [hk]; exact Nat.lt_pow_succ_log_self (by norm_num) _
    have hk15 : k ≤ 15 := by
      by_contra hcon
      have h16 : 16 ≤ k := by omega
      have : 2 ^ 16 ≤ 2 ^ k := Nat.pow_le_pow_right (by norm_num) h16
      have : (2 : ℕ) ^ 16 = 65536 := by norm_num
      omega
    have hpow : 2 ^ k * 2 ^ (23 - k) = 2 ^ 23 := by
      rw [← pow_add]; congr 1; omega
    have h1 : 2 ^ 23 ≤ n * 2 ^ (23 - k) := by
      calc 2 ^ 23 = 2 ^ k * 2 ^ (23 - k) := hpow.symm
        _ ≤ n * 2 ^ (23 - k) := Nat.mul_le_mul_right _ hlo
    have h2 : n * 2 ^ (23 - k) < 2 ^ 24 := by
      calc n * 2 ^ (23 - k) < 2 ^ (k + 1) * 2 ^ (23 - k) :=
            Nat.mul_lt_mul_of_pos_right hhi (pow_pos (by norm_num) _)
        _ = 2 ^ 24 := by rw [pow_succ, mul_assoc, mul_comm 2, ← mul_assoc, hpow]; norm_num
    have hsc := natCast_eq_scaled n k 23 (by omega)
    simp only [Nat.cast_ofNat] at hsc
    have hr := round_scaled ((n * 2 ^ (23 - k) : ℕ) : ℚ) ((k : Int) - 23)
      ((n * 2 ^ (23 - k) : ℕ) : Int) (by omega) (by exact_mod_cast h1)
      (by exact_mod_cast h2) (Or.inl (by simp))
    rw [← hsc] at hr
    rw [hr, Int.cast_natCast]
    exact hsc.symm

theorem roundHalfEven_error (q : ℚ) : |(roundHalfEven q : ℚ) - q| ≤ 1 / 2 := by
  have h1 := Int.floor_le q
  have h2 := Int.lt_floor_add_one q
  unfold roundHalfEven
  simp only []
  rw [abs_le]
  split_ifs with c1 c2 c3
  · constructor <;> linarith
  · push_cast; constructor <;> linarith
  · push_cast at c1 c2 ⊢; constructor <;> linarith
  · push_cast at c1 c2 ⊢; constructor <;> linarith

theorem exponent_le_of_abs_lt (x : ℚ) (k : Int) (hk : 0 ≤ k) (h : |x| < (2 : ℚ) ^ (k + 1)) :
    exponent x ≤ k := by
  unfold exponent
  apply max_le _ (by omega)
  rcases eq_or_lt_of_le (abs_nonneg x) with h0 | hpos
  · rw [← h0, Int.log_zero_right]
    exact hk
  · have := (Int.lt_zpow_iff_log_lt (b := 2) (by norm_num) hpos (x := k + 1)).mp
      (by exact_mod_cast h)
    omega

/-- The rounding error is at most half the spacing of the binade. -/
theorem round_error (x : ℚ) : |round x - x| ≤ (2 : ℚ) ^ (exponent x - 23) / 2 := by
  have hu : (0 : ℚ) < (2 : ℚ) ^ (exponent x - 23) := zpow_pos (by norm_num) _
  have h := roundHalfEven_error (x / (2 : ℚ) ^ (exponent x - 23))
  unfold round
  simp only []
  have e : (roundHalfEven (x / (2 : ℚ) ^ (exponent x - 23)) : ℚ) * (2 : ℚ) ^ (exponent x - 23) - x
      = ((roundHalfEven (x / (2 : ℚ) ^ (exponent x - 23)) : ℚ)
          - x / (2 : ℚ) ^ (exponent x - 23)) * (2 : ℚ) ^ (exponent x - 23) := by
    field_simp
  rw [e, abs_mul, abs_of_pos hu]
  calc |(roundHalfEven (x / (2 : ℚ) ^ (exponent x - 23)) : ℚ) - x / (2 : ℚ) ^ (exponent x - 23)|
        * (2 : ℚ) ^ (exponent x - 23)
      ≤ 1 / 2 * (2 : ℚ) ^ (exponent x - 23) := mul_le_mul_of_nonneg_right h (le_of_lt hu)
    _ = (2 : ℚ) ^ (exponent x - 23) / 2 := by ring

/-- A hysteresis above 1/64 is not rounded away while the sum stays below 2^19: the
binary32 sum lies above the set point. -/
theorem lt_round_add (s h : ℚ) (hx : |s + h| < (2 : ℚ) ^ (19 : ℕ)) (hh : 1 / 64 < h) :
    s < round (s + h) := by
  have he := exponent_le_of_abs_lt (s + h) 18 (by norm_num) (by exact_mod_cast hx)
  have hu : (2 : ℚ) ^ (exponent (s + h) - 23) ≤ (2 : ℚ) ^ (-5 : Int) :=
    zpow_le_zpow_right₀ (by norm_num) (by omega)
  have herr := round_error (s + h)
  rw [abs_le] at herr
  have e5 : (2 : ℚ) ^ (-5 : Int) = 1 / 32 := by norm_num
  rw [e5] at hu
  linarith [herr.1]

end Binary32

/-! ## The decision engine under the binary32 reading -/

namespace Binary32

theorem heatState_fields (s a : ℚ) :
    (heatState s a).setPoint = s ∧ (heatState s a).avgTemp = a
    ∧ (heatState s a).hyst = 13421773 / 268435456
    ∧ round ((heatState s a).failSafeTemp : ℚ) = 1
    ∧ (heatState s a).heatMode = false ∧ (heatState s a).powerSet = true := by
  refine ⟨rfl, rfl, round_hyst, ?_, rfl, rfl⟩
  have h : (((heatState s a).failSafeTemp : Int) : ℚ) = 1 := by
    simp [heatState, initGlobals, WebTherm.initGlobals]
  rw [h, round_one]

theorem coolState_fields (s a : ℚ) (t : Nat) :
    (coolState s a t).setPoint = s ∧ (coolState s a t).avgTemp = a
    ∧ (coolState s a t).hyst = 13421773 / 268435456
    ∧ round ((coolState s a t).failSafeTemp : ℚ) = 1
    ∧ (coolState s a t).heatMode = true ∧ (coolState s a t).powerSet = true
    ∧ (coolState s a t).shutDownTimer = t ∧ (coolState s a t).device = false := by
  refine ⟨rfl, rfl, round_hyst, ?_, rfl, rfl, rfl, rfl⟩
  have h : (((coolState s a t).failSafeTemp : Int) : ℚ) = 1 := by
    simp [coolState, initGlobals, WebTherm.initGlobals]
  rw [h, round_one]

/-- The binary32 difference `73.5 - hyst` is 9627238 / 2^17 = 73.44999694824219. -/
theorem round_heat_edge :
    round (73.5 - 13421773 / 268435456) = 9627238 / 131072 := by
  rw [round_pos_of_binade _ 6 9627238 (by norm_num) (by norm_num) (by norm_num)
    (by rw [abs_lt]; norm_num)]
  norm_num

/-- The binary32 difference `60 - hyst` is 15715533 / 2^18 = 59.950000762939453125,
above the exact difference. -/
theorem round_heat_edge_60 :
    round (60 - 13421773 / 268435456) = 15715533 / 262144 := by
  rw [round_pos_of_binade _ 5 15715533 (by norm_num) (by norm_num) (by norm_num)
    (by rw [abs_lt]; norm_num)]
  norm_num

/-- The binary32 sum `70 + hyst` is 9181594 / 2^17 = 70.05000305175781. -/
theorem round_cool_edge :
    round (70 + 13421773 / 268435456) = 9181594 / 131072 := by
  rw [round_pos_of_binade _ 6 9181594 (by norm_num) (by norm_num) (by norm_num)
    (by rw [abs_lt]; norm_num)]
  norm_num

/-- The binary32 sum `40 + hyst` is 10498867 / 2^18 = 40.049999237060546875, below
the exact sum. -/
theorem round_cool_edge_40 :
    round (40 + 13421773 / 268435456) = 10498867 / 262144 := by
  rw [round_pos_of_binade _ 5 10498867 (by norm_num) (by norm_num) (by norm_num)
    (by rw [abs_lt]; norm_num)]
  norm_num

end Binary32

/-- The two embeddings of `thermoStat` agree on every state in which `failSafeTemp`
is a binary32 value and the comparisons of the temperature with the rounded band edges
have the same outcome as with the exact ones. -/
theorem Binary32.thermoStat_eq_of_agree (millis : Nat) (g : Globals)
    (hfs : Binary32.round (g.failSafeTemp : ℚ) = (g.failSafeTemp : ℚ))
    (h1 : g.avgTemp ≤ Binary32.round (g.setPoint - g.hyst) ↔ g.avgTemp ≤ g.setPoint - g.hyst)
    (h2 : g.avgTemp ≥ Binary32.round (g.setPoint + g.hyst) ↔ g.avgTemp ≥ g.setPoint + g.hyst) :
    Binary32.thermoStat millis g = WebTherm.thermoStat millis g := by
  unfold Binary32.thermoStat WebTherm.thermoStat
  simp only [hfs, h1, h2]

/-- On a tick in which the fail-safe triggers the two embeddings agree. -/
theorem Binary32.thermoStat_failSafe_eq (millis : Nat) (g : Globals)
    (hfs : Binary32.round (g.failSafeTemp : ℚ) = (g.failSafeTemp : ℚ))
    (h : g.avgTemp < (g.failSafeTemp : ℚ)) :
    Binary32.thermoStat millis g = WebTherm.thermoStat millis g := by
  have hn : ¬ g.avgTemp ≥ (g.failSafeTemp : ℚ) := not_le.mpr h
  unfold Binary32.thermoStat WebTherm.thermoStat
  simp only [hfs, hn, if_false]

/-- On a tick with the power off the two embeddings agree. -/
theorem Binary32.thermoStat_powerOff_eq (millis : Nat) (g : Globals)
    (hfs : Binary32.round (g.failSafeTemp : ℚ) = (g.failSafeTemp : ℚ))
    (hp : g.powerSet = false) :
    Binary32.thermoStat millis g = WebTherm.thermoStat millis g := by
  unfold Binary32.thermoStat WebTherm.thermoStat
  simp only [hfs, hp, Bool.false_eq_true, if_false]

/-- C3. Heat-mode decision, with `setPoint - hyst` the binary32 difference the code
computes. With `heatMode == 0` (Heat), power on and `avgTemp >= failSafeTemp`, after
one tick the device is on exactly when `avgTemp <= setPoint - hyst`; the result is the
same whatever the previous device value, the last setting, the shutdown timer and the
clock are (no anti-short-cycle guard in Heat mode); and a temperature strictly inside
the band `(setPoint - hyst, setPoint)` yields off. -/
theorem thermoStat_heat_decision (millis : Nat) (g : Globals)
    (hm : g.heatMode = false) (hp : g.powerSet = true)
    (hf : g.avgTemp ≥ Binary32.round (g.failSafeTemp : ℚ)) :
    ((Binary32.thermoStat millis g).device = true
        ↔ g.avgTemp ≤ Binary32.round (g.setPoint - g.hyst))
    ∧ (∀ (millis₂ : Nat) (d l : Bool) (t : Nat),
        (Binary32.thermoStat millis₂
            { g with device := d, deviceLastSetting := l, shutDownTimer := t }).device
          = (Binary32.thermoStat millis g).device)
    ∧ (Binary32.round (g.setPoint - g.hyst) < g.avgTemp → g.avgTemp < g.setPoint →
        (Binary32.thermoStat millis g).device = false) := by
  have key : ∀ (m : Nat) (d l : Bool) (t : Nat),
      (Binary32.thermoStat m
          { g with device := d, deviceLastSetting := l, shutDownTimer := t }).device
        = decide (g.avgTemp ≤ Binary32.round (g.setPoint - g.hyst)) := by
    intro m d l t
    unfold Binary32.thermoStat
    simp only [hf, hp, hm, if_true]
    by_cases h1 : g.avgTemp ≤ Binary32.round (g.setPoint - g.hyst)
    · simp [h1]
    · by_cases h2 : g.avgTemp ≥ g.setPoint <;> simp [h1, h2]
  have key₀ : (Binary32.thermoStat millis g).device
      = decide (g.avgTemp ≤ Binary32.round (g.setPoint - g.hyst)) :=
    key millis g.device g.deviceLastSetting g.shutDownTimer
  refine ⟨?_, ?_, ?_⟩
  · rw [key₀]; simp
  · intro m d l t
    rw [key₀, key m d l t]
  · intro hlo _
    rw [key₀]
    simpa using hlo

/-- Witness of C3: set point 73.5, hysteresis the binary32 value of 0.05, Heat mode,
power on: the binary32 values of 73.44, 73.5 and 73.47 give on, off and off. With set
point 60 the temperature 59.950000762939453125, which is the binary32 difference
`60 - hyst` and lies above the exact difference, gives on. -/
theorem thermoStat_heat_decision_witness :
    (Binary32.thermoStat 0 (Binary32.heatState 73.5 (9625928 / 131072))).device = true
    ∧ (Binary32.thermoStat 0 (Binary32.heatState 73.5 73.5)).device = false
    ∧ (Binary32.thermoStat 0 (Binary32.heatState 73.5 (9629860 / 131072))).device = false
    ∧ (Binary32.thermoStat 0 (Binary32.heatState 60 (15715533 / 262144))).device = true
    ∧ (60 : ℚ) - 13421773 / 268435456 < 15715533 / 262144
    ∧ Binary32.round 73.44 = 9625928 / 131072
    ∧ Binary32.round 73.47 = 9629860 / 131072 := by
  obtain ⟨a1, a2, a3, a4, a5, a6⟩ := Binary32.heatState_fields 73.5 (9625928 / 131072)
  obtain ⟨b1, b2, b3, b4, b5, b6⟩ := Binary32.heatState_fields 73.5 73.5
  obtain ⟨c1, c2, c3, c4, c5, c6⟩ := Binary32.heatState_fields 73.5 (9629860 / 131072)
  obtain ⟨d1, d2, d3, d4, d5, d6⟩ := Binary32.heatState_fields 60 (15715533 / 262144)
  have r44 : Binary32.round 73.44 = 9625928 / 131072 := by
    rw [Binary32.round_pos_of_binade 73.44 6 9625928 (by norm_num) (by norm_num)
      (by norm_num) (by rw [abs_lt]; norm_num)]
    norm_num
  have r47 : Binary32.round 73.47 = 9629860 / 131072 := by
    rw [Binary32.round_pos_of_binade 73.47 6 9629860 (by norm_num) (by norm_num)
      (by norm_num) (by rw [abs_lt]; norm_num)]
    norm_num
  refine ⟨?_, ?_, ?_, ?_, by norm_num, r44, r47⟩
  · refine (thermoStat_heat_decision 0 _ a5 a6 (by rw [a4, a2]; norm_num)).1.mpr ?_
    rw [a1, a2, a3, Binary32.round_heat_edge]
    norm_num
  · refine Bool.eq_false_iff.mpr (fun h => ?_)
    have := (thermoStat_heat_decision 0 _ b5 b6 (by rw [b4, b2]; norm_num)).1.mp h
    rw [b1, b2, b3, Binary32.round_heat_edge] at this
    norm_num at this
  · refine (thermoStat_heat_decision 0 _ c5 c6 (by rw [c4, c2]; norm_num)).2.2 ?_ ?_
    · rw [c1, c2, c3, Binary32.round_heat_edge]
      norm_num
    · rw [c1, c2]
      norm_num
  · refine (thermoStat_heat_decision 0 _ d5 d6 (by rw [d4, d2]; norm_num)).1.mpr ?_
    rw [d1, d2, d3, Binary32.round_heat_edge_60]

theorem subULong_of_elapsed (millis timer t₀ e : Nat) (he : e < 2 ^ 32)
    (ht : timer = t₀ % 2 ^ 32) (hnow : millis % 2 ^ 32 = (t₀ + e) % 2 ^ 32) :
    subULong millis timer = e := by
  rw [ht]
  unfold subULong ULONG_SIZE
  omega

/-- C11. Cool-mode tick rule with wrap-safe timing, with `setPoint + hyst` the binary32
sum the code computes. For every state with `heatMode == 1` (Cool), power on and
`avgTemp >= failSafeTemp`, and every clock value, one `thermoStat` tick compares
`elapsed = (now - shutDownTimer) mod 2^32` with 300000: the device is set on if
`avgTemp >= setPoint + hyst` and `elapsed >= 300000`; otherwise it is set off if
`avgTemp <= setPoint`; otherwise (inside the band, or above it while the off-time has
not elapsed) it is left at its previous value. When the sum lies above the set point
the first two cases exclude each other and the device is set off whenever
`avgTemp <= setPoint`; this is so for every `hyst > 1/64` (the code has 0.05) while
`|setPoint + hyst| < 2^19`, a smaller positive hysteresis can be rounded away. For every
shutdown time `t₀` and every true elapsed duration `e < 2^32`, at the clock value
`(t₀ + e) mod 2^32` the elapsed time computed is `e`, so the guard passes exactly when
`e >= 300000`, also when the clock has wrapped between `t₀` and now. -/
theorem thermoStat_cool_rule (millis : Nat) (g : Globals)
    (hm : g.heatMode = true) (hp : g.powerSet = true)
    (hf : g.avgTemp ≥ Binary32.round (g.failSafeTemp : ℚ)) :
    ((subULong millis g.shutDownTimer : Nat) : Int)
        = ((millis % 2 ^ 32 : Nat) - (g.shutDownTimer : Int)) % 2 ^ 32
    ∧ (g.avgTemp ≥ Binary32.round (g.setPoint + g.hyst) →
        subULong millis g.shutDownTimer ≥ 300000 →
        (Binary32.thermoStat millis g).device = true)
    ∧ (g.avgTemp ≤ g.setPoint →
        (g.avgTemp < Binary32.round (g.setPoint + g.hyst)
          ∨ subULong millis g.shutDownTimer < 300000) →
        (Binary32.thermoStat millis g).device = false)
    ∧ (g.setPoint < Binary32.round (g.setPoint + g.hyst) → g.avgTemp ≤ g.setPoint →
        (Binary32.thermoStat millis g).device = false)
    ∧ (1 / 64 < g.hyst → |g.setPoint + g.hyst| < 2 ^ 19 → g.avgTemp ≤ g.setPoint →
        (Binary32.thermoStat millis g).device = false)
    ∧ (g.setPoint < g.avgTemp →
        (g.avgTemp < Binary32.round (g.setPoint + g.hyst)
          ∨ subULong millis g.shutDownTimer < 300000) →
        (Binary32.thermoStat millis g).device = g.device)
    ∧ (∀ t₀ e : Nat, e < 2 ^ 32 → g.shutDownTimer = t₀ % 2 ^ 32 →
        millis % 2 ^ 32 = (t₀ + e) % 2 ^ 32 →
        subULong millis g.shutDownTimer = e
        ∧ (subULong millis g.shutDownTimer ≥ 300000 ↔ e ≥ 300000)
        ∧ (g.avgTemp ≥ Binary32.round (g.setPoint + g.hyst) → g.setPoint < g.avgTemp →
            g.device = false →
            ((Binary32.thermoStat millis g).device = true ↔ e ≥ 300000))) := by
  have hsub : subULong (millis % ULONG_SIZE) g.shutDownTimer
      = subULong millis g.shutDownTimer := subULong_mod_left millis g.shutDownTimer
  have hon : g.avgTemp ≥ Binary32.round (g.setPoint + g.hyst) →
      subULong millis g.shutDownTimer ≥ 300000 →
      (Binary32.thermoStat millis g).device = true := by
    intro h1 h2
    have h2' : subULong millis g.shutDownTimer ≥ POWER_WAIT := h2
    unfold Binary32.thermoStat
    simp [hf, hp, hm, hsub, h1, h2']
  have hguard : (g.avgTemp < Binary32.round (g.setPoint + g.hyst)
        ∨ subULong millis g.shutDownTimer < 300000) →
      ¬ (g.avgTemp ≥ Binary32.round (g.setPoint + g.hyst)
        ∧ subULong millis g.shutDownTimer ≥ POWER_WAIT) := by
    rintro h2 ⟨k1, k2⟩
    rcases h2 with h2 | h2
    · exact absurd k1 (not_le.mpr h2)
    · exact absurd k2 (not_le.mpr h2)
  have hoff : g.avgTemp ≤ g.setPoint →
      (g.avgTemp < Binary32.round (g.setPoint + g.hyst)
        ∨ subULong millis g.shutDownTimer < 300000) →
      (Binary32.thermoStat millis g).device = false := by
    intro h1 h2
    have hn2 := hguard h2
    unfold Binary32.thermoStat
    simp only [hf, hp, hm, hsub, hn2, h1, if_true, if_false, Bool.true_eq_false]
    split_ifs <;> rfl
  have hkeep : g.setPoint < g.avgTemp →
      (g.avgTemp < Binary32.round (g.setPoint + g.hyst)
        ∨ subULong millis g.shutDownTimer < 300000) →
      (Binary32.thermoStat millis g).device = g.device := by
    intro h1 h2
    have hn1 : ¬ g.avgTemp ≤ g.setPoint := not_le.mpr h1
    have hn2 := hguard h2
    unfold Binary32.thermoStat
    simp only [hf, hp, hm, hsub, hn1, hn2, if_true, if_false, Bool.true_eq_false]
  refine ⟨?_, hon, hoff, ?_, ?_, hkeep, ?_⟩
  · unfold subULong ULONG_SIZE
    omega
  · intro hband h1
    exact hoff h1 (Or.inl (lt_of_le_of_lt h1 hband))
  · intro hh hx h1
    have hband := Binary32.lt_round_add g.setPoint g.hyst (by exact_mod_cast hx) hh
    exact hoff h1 (Or.inl (lt_of_le_of_lt h1 hband))
  · intro t₀ e he ht hnow
    have hel := subULong_of_elapsed millis g.shutDownTimer t₀ e he ht hnow
    refine ⟨hel, by rw [hel], ?_⟩
    intro h1 hsp hd
    constructor
    · intro hdev
      by_contra hlt
      have hlt' : subULong millis g.shutDownTimer < 300000 := by
        rw [hel]; exact not_le.mp hlt
      rw [hkeep hsp (Or.inr hlt'), hd] at hdev
      exact Bool.noConfusion hdev
    · intro hge
      exact hon h1 (by rw [hel]; exact hge)

/-- Witness of C11. Set point 70, hysteresis the binary32 value of 0.05, temperature
the binary32 value of 70.6, shutdown recorded at clock value 4294900000, shortly before
the clock wraps: at clock value 232705 (300001 ms later, after the wrap) the elapsed
time computed is 300001 and the cooler is turned on; at clock value 32704 (100000 ms
later) the device stays off. With set point 40 and the temperature
40.049999237060546875, which is the binary32 sum `40 + hyst` and lies below the exact
sum, the cooler is turned on once 400000 ms have elapsed. -/
theorem thermoStat_cool_rule_witness :
    (Binary32.thermoStat 232705
        (Binary32.coolState 70 (9253683 / 131072) 4294900000)).device = true
    ∧ subULong 232705 (Binary32.coolState 70 (9253683 / 131072) 4294900000).shutDownTimer
        = 300001
    ∧ (Binary32.thermoStat 32704
        (Binary32.coolState 70 (9253683 / 131072) 4294900000)).device = false
    ∧ (Binary32.thermoStat 400000 (Binary32.coolState 40 (10498867 / 262144) 0)).device
        = true
    ∧ (10498867 / 262144 : ℚ) < 40 + 13421773 / 268435456
    ∧ Binary32.round 70.6 = 9253683 / 131072 := by
  obtain ⟨a1, a2, a3, a4, a5, a6, a7, a8⟩ :=
    Binary32.coolState_fields 70 (9253683 / 131072) 4294900000
  obtain ⟨b1, b2, b3, b4, b5, b6, b7, b8⟩ :=
    Binary32.coolState_fields 40 (10498867 / 262144) 0
  have H₁ := thermoStat_cool_rule 232705 _ a5 a6 (by rw [a4, a2]; norm_num)
  have H₂ := thermoStat_cool_rule 32704 _ a5 a6 (by rw [a4, a2]; norm_num)
  have H₃ := thermoStat_cool_rule 400000 _ b5 b6 (by rw [b4, b2]; norm_num)
  have r706 : Binary32.round 70.6 = 9253683 / 131072 := by
    rw [Binary32.round_pos_of_binade 70.6 6 9253683 (by norm_num) (by norm_num)
      (by norm_num) (by rw [abs_lt]; norm_num)]
    norm_num
  refine ⟨?_, ?_, ?_, ?_, by norm_num, r706⟩
  · refine H₁.2.1 ?_ ?_
    · rw [a1, a2, a3, Binary32.round_cool_edge]
      norm_num
    · rw [a7]; decide
  · exact (H₁.2.2.2.2.2.2 4294900000 300001 (by norm_num) (by rw [a7]; norm_num)
      (by norm_num)).1
  · rw [H₂.2.2.2.2.2.1 (by rw [a1, a2]; norm_num) (Or.inr (by rw [a7]; decide)), a8]
  · refine H₃.2.1 ?_ ?_
    · rw [b1, b2, b3, Binary32.round_cool_edge_40]
    · rw [b7]; decide

/-! ## The settings codec under the binary32 reading -/

namespace Binary32

theorem floatToInt_of_word (n : ℕ) (hn : n ≤ 65535) : floatToInt (n : ℚ) = (n : Int) := by
  unfold floatToInt
  rw [WebTherm.floatToInt_natCast]
  have h1 : ((2 : Int) ^ 31 - 1) = 2147483647 := by norm_num
  have h2 : (-(2 : Int) ^ 31) = -2147483648 := by norm_num
  rw [h1, h2]
  omega

/-- The storage after `writeEEPROM`, for every state: each field is written exactly
when it differs from its shadow, the marker is written and the buffer committed exactly
when some field is written. -/
theorem writeEEPROM_storage (g : Globals) (E : EEPROMClass) :
    (writeEEPROM g E).2.1.data =
      (fun a =>
        if (round (g.storedSetPoint : ℚ) ≠ round (g.setPoint * 10)
            ∨ g.storedPowerState ≠ g.powerSet ∨ g.storedHeatMode ≠ g.heatMode) ∧ a = 0
          then EEPROM_ID
        else if g.storedHeatMode ≠ g.heatMode ∧ a = 11 then boolToByte g.heatMode
        else if g.storedPowerState ≠ g.powerSet ∧ a = 10 then boolToByte g.powerSet
        else if round (g.storedSetPoint : ℚ) ≠ round (g.setPoint * 10) ∧ a = 6
          then lowByte (floatToInt (round (g.setPoint * 10)))
        else if round (g.storedSetPoint : ℚ) ≠ round (g.setPoint * 10) ∧ a = 5
          then highByte (floatToInt (round (g.setPoint * 10)))
        else E.data a)
    ∧ (writeEEPROM g E).2.1.flash =
      (if round (g.storedSetPoint : ℚ) ≠ round (g.setPoint * 10)
          ∨ g.storedPowerState ≠ g.powerSet ∨ g.storedHeatMode ≠ g.heatMode
        then (writeEEPROM g E).2.1.data else E.flash) := by
  by_cases c1 : round (g.storedSetPoint : ℚ) = round (g.setPoint * 10) <;>
  by_cases c2 : g.storedPowerState = g.powerSet <;>
  by_cases c3 : g.storedHeatMode = g.heatMode <;>
  simp [writeEEPROM, EEPROMClass.write, EEPROMClass.commit, ID_ADDR, setPointAddr,
    c1, c2, c3]

/-- The startup load on a storage that holds the valid marker and the 16-bit word `n`
in bytes 5-6. -/
theorem setup_decode (g₀ : Globals) (E : EEPROMClass) (n : ℕ) (hn : n ≤ 65535)
    (h0 : E.flash 0 = 0x99) (hw : word (E.flash 5) (E.flash 6) = n) :
    (setup g₀ E).1.setPoint = round ((n : ℚ) / 10)
    ∧ (setup g₀ E).1.powerSet = byteToBool (E.flash 10)
    ∧ (setup g₀ E).1.heatMode = byteToBool (E.flash 11) := by
  have h0' : E.flash 0 = 153 := h0
  refine ⟨?_, ?_, ?_⟩
  · simp only [setup, EEPROMClass.begin, EEPROMClass.read, ID_ADDR, setPointAddr, EEPROM_ID,
      h0', if_true, hw]
    show round (round (((n : ℕ) : Int) : ℚ) / 10) = round ((n : ℚ) / 10)
    rw [Int.cast_natCast, round_natCast n hn]
  · simp only [setup, EEPROMClass.begin, EEPROMClass.read, ID_ADDR, setPointAddr, EEPROM_ID,
      h0', if_true]
  · simp only [setup, EEPROMClass.begin, EEPROMClass.read, ID_ADDR, setPointAddr, EEPROM_ID,
      h0', if_true]

/-- The binary32 value nearest to 73.6 is 9646899 / 2^17 = 73.59999847412109375. -/
theorem round_saved : round 73.6 = 9646899 / 131072 := by
  rw [round_pos_of_binade 73.6 6 9646899 (by norm_num) (by norm_num) (by norm_num)
    (by rw [abs_lt]; norm_num)]
  norm_num

/-- The binary32 product of the binary32 value nearest to 73.6 and 10 is 736. -/
theorem round_saved_mul_ten : round (9646899 / 131072 * 10) = 736 := by
  have h := round_tenth_mul_ten 736 (by norm_num)
  have e : ((736 : ℕ) : ℚ) / 10 = 73.6 := by norm_num
  rw [e, round_saved] at h
  rw [h]
  norm_num

end Binary32

/-- C6. Dirty-field write avoidance, with `storedSetPoint` and `setPoint * 10` compared
as the code compares them: the shadow converted to float against the binary32 product.
For every state, the calls `writeEEPROM` issues on the EEPROM are, in this order:
writes of bytes 5 and 6 exactly when `storedSetPoint` differs from `setPoint * 10`; a
write of byte 10 exactly when `storedPowerState` differs from `powerSet`; a write of
byte 11 exactly when `storedHeatMode` differs from `heatMode`; a write of the marker to
byte 0 and a commit exactly when at least one of the three holds. The three reported
flags are exactly these three conditions. When none holds (the settings equal the
stored ones) no write and no commit is issued and the globals (the stored shadows
included) and the storage are unchanged. -/
theorem writeEEPROM_dirty_fields (g : Globals) (E : EEPROMClass) :
    (Binary32.writeEEPROM g E).2.1.calls =
      E.calls
        ++ (if Binary32.round (g.storedSetPoint : ℚ) ≠ Binary32.round (g.setPoint * 10) then
              [EEPROMCall.write 5
                  (highByte (Binary32.floatToInt (Binary32.round (g.setPoint * 10)))),
               EEPROMCall.write 6
                  (lowByte (Binary32.floatToInt (Binary32.round (g.setPoint * 10))))]
            else [])
        ++ (if g.storedPowerState ≠ g.powerSet then
              [EEPROMCall.write 10 (boolToByte g.powerSet)] else [])
        ++ (if g.storedHeatMode ≠ g.heatMode then
              [EEPROMCall.write 11 (boolToByte g.heatMode)] else [])
        ++ (if Binary32.round (g.storedSetPoint : ℚ) ≠ Binary32.round (g.setPoint * 10)
                ∨ g.storedPowerState ≠ g.powerSet ∨ g.storedHeatMode ≠ g.heatMode then
              [EEPROMCall.write 0 0x99, EEPROMCall.commit] else [])
    ∧ ((Binary32.writeEEPROM g E).2.2.setPointUpdated = true
        ↔ Binary32.round (g.storedSetPoint : ℚ) ≠ Binary32.round (g.setPoint * 10))
    ∧ ((Binary32.writeEEPROM g E).2.2.powerUpdated = true ↔ g.storedPowerState ≠ g.powerSet)
    ∧ ((Binary32.writeEEPROM g E).2.2.heatModeUpdated = true
        ↔ g.storedHeatMode ≠ g.heatMode)
    ∧ (Binary32.round (g.storedSetPoint : ℚ) = Binary32.round (g.setPoint * 10) →
        g.storedPowerState = g.powerSet → g.storedHeatMode = g.heatMode →
        (Binary32.writeEEPROM g E).2.1.calls = E.calls ∧ (Binary32.writeEEPROM g E).2.1 = E
          ∧ (Binary32.writeEEPROM g E).1 = g) := by
  by_cases c1 : Binary32.round (g.storedSetPoint : ℚ) = Binary32.round (g.setPoint * 10) <;>
  by_cases c2 : g.storedPowerState = g.powerSet <;>
  by_cases c3 : g.storedHeatMode = g.heatMode <;>
  simp [Binary32.writeEEPROM, EEPROMClass.write, EEPROMClass.commit, ID_ADDR, EEPROM_ID,
    setPointAddr, c1, c2, c3]

/-- Witness of C6. In the state the device holds after loading 73.6 (set point the
binary32 value 73.59999847412109375, shadow 736, flags equal to their shadows) the
binary32 product is 736, nothing differs, and `writeEEPROM` issues no call, reports no
update and leaves the storage unchanged. In `savedState`, where all three fields differ,
it issues the four writes and the commit. -/
theorem writeEEPROM_dirty_fields_witness :
    (Binary32.writeEEPROM Binary32.loadedState blankStorage).2.1.calls = []
    ∧ (Binary32.writeEEPROM Binary32.loadedState blankStorage).2.2 = ⟨false, false, false⟩
    ∧ (Binary32.writeEEPROM Binary32.savedState blankStorage).2.1.calls
        = [EEPROMCall.write 5 2, EEPROMCall.write 6 224, EEPROMCall.write 10 1,
           EEPROMCall.write 11 1, EEPROMCall.write 0 0x99, EEPROMCall.commit] := by
  have hl : Binary32.round ((Binary32.loadedState.storedSetPoint : Int) : ℚ)
      = Binary32.round (Binary32.loadedState.setPoint * 10) := by
    have e1 : ((Binary32.loadedState.storedSetPoint : Int) : ℚ) = ((736 : ℕ) : ℚ) := by
      simp [Binary32.loadedState]
    have e2 : Binary32.loadedState.setPoint = 9646899 / 131072 := rfl
    rw [e1, e2, Binary32.round_natCast 736 (by norm_num), Binary32.round_saved_mul_ten]
    norm_num
  have hs : Binary32.round (Binary32.savedState.setPoint * 10) = ((736 : ℕ) : ℚ) := by
    have e2 : Binary32.savedState.setPoint = 9646899 / 131072 := rfl
    rw [e2, Binary32.round_saved_mul_ten]
    norm_num
  have hs0 : Binary32.round ((Binary32.savedState.storedSetPoint : Int) : ℚ)
      ≠ Binary32.round (Binary32.savedState.setPoint * 10) := by
    have e1 : ((Binary32.savedState.storedSetPoint : Int) : ℚ) = 0 := by
      simp [Binary32.savedState, Binary32.initGlobals, initGlobals]
    rw [e1, Binary32.round_zero, hs]
    norm_num
  have H₁ := (writeEEPROM_dirty_fields Binary32.loadedState blankStorage).2.2.2.2 hl rfl rfl
  have H₂ := (writeEEPROM_dirty_fields Binary32.savedState blankStorage).1
  have hi : highByte (736 : Int) = 2 := by decide
  have lo : lowByte (736 : Int) = 224 := by decide
  refine ⟨H₁.1, ?_, ?_⟩
  · have hf := writeEEPROM_dirty_fields Binary32.loadedState blankStorage
    have f1 : (Binary32.writeEEPROM Binary32.loadedState blankStorage).2.2.setPointUpdated
        = false := by
      cases h : (Binary32.writeEEPROM Binary32.loadedState blankStorage).2.2.setPointUpdated
      · rfl
      · exact absurd hl (hf.2.1.mp h)
    have f2 : (Binary32.writeEEPROM Binary32.loadedState blankStorage).2.2.powerUpdated
        = false := by
      cases h : (Binary32.writeEEPROM Binary32.loadedState blankStorage).2.2.powerUpdated
      · rfl
      · exact absurd rfl (hf.2.2.1.mp h)
    have f3 : (Binary32.writeEEPROM Binary32.loadedState blankStorage).2.2.heatModeUpdated
        = false := by
      cases h : (Binary32.writeEEPROM Binary32.loadedState blankStorage).2.2.heatModeUpdated
      · rfl
      · exact absurd rfl (hf.2.2.2.1.mp h)
    cases hfl : (Binary32.writeEEPROM Binary32.loadedState blankStorage).2.2
    rw [hfl] at f1 f2 f3
    simp only at f1 f2 f3
    rw [f1, f2, f3]
  · rw [H₂, if_pos hs0, hs, Binary32.floatToInt_of_word 736 (by norm_num)]
    simp [hs0, hi, lo, blankStorage, Binary32.savedState, boolToByte, Binary32.initGlobals,
      initGlobals]

/-- C8. Persisted byte layout, with `setPoint * 10` the binary32 product the code
computes. For every state in which all three fields differ from their stored shadows
and `setPoint * 10` is an integer `n` with `0 <= n <= 65535`, after `writeEEPROM` the
storage holds byte 0 = 0x99, byte 5 = `n div 256`, byte 6 = `n mod 256`, byte 10 = 1 if
power is on else 0, byte 11 = 1 if the mode is Cool else 0, every other byte is
unchanged, and these contents are committed to flash. -/
theorem writeEEPROM_layout (g : Globals) (E : EEPROMClass) (n : Nat)
    (hn : Binary32.round (g.setPoint * 10) = (n : ℚ)) (hle : n ≤ 65535)
    (c1 : Binary32.round (g.storedSetPoint : ℚ) ≠ Binary32.round (g.setPoint * 10))
    (c2 : g.storedPowerState ≠ g.powerSet) (c3 : g.storedHeatMode ≠ g.heatMode) :
    (Binary32.writeEEPROM g E).2.1.data 0 = 0x99
    ∧ ((Binary32.writeEEPROM g E).2.1.data 5).val = n / 256
    ∧ ((Binary32.writeEEPROM g E).2.1.data 6).val = n % 256
    ∧ ((Binary32.writeEEPROM g E).2.1.data 10).val = (if g.powerSet = true then 1 else 0)
    ∧ ((Binary32.writeEEPROM g E).2.1.data 11).val = (if g.heatMode = true then 1 else 0)
    ∧ (∀ a : Nat, a ≠ 0 → a ≠ 5 → a ≠ 6 → a ≠ 10 → a ≠ 11 →
        (Binary32.writeEEPROM g E).2.1.data a = E.data a)
    ∧ (Binary32.writeEEPROM g E).2.1.flash = (Binary32.writeEEPROM g E).2.1.data := by
  obtain ⟨hd, hfl⟩ := Binary32.writeEEPROM_storage g E
  rw [if_pos (Or.inl c1)] at hfl
  rw [hn, Binary32.floatToInt_of_word n hle] at hd
  have c1' : Binary32.round (g.storedSetPoint : ℚ) ≠ (n : ℚ) := by rw [← hn]; exact c1
  refine ⟨?_, ?_, ?_, ?_, ?_, ?_, hfl⟩
  · rw [hd]; simp [c1', EEPROM_ID]
  · rw [hd]; simp [c1', c2, c3, highByte_natCast n hle]
  · rw [hd]; simp [c1', c2, c3, lowByte_natCast n]
  · rw [hd]; cases hp : g.powerSet <;> simp [c1', c2, c3, hp, boolToByte] <;> simp_all
  · rw [hd]; cases hm : g.heatMode <;> simp [c1', c2, c3, hm, boolToByte] <;> simp_all
  · intro a h0 h5 h6 h10 h11
    rw [hd]
    simp [h0, h5, h6, h10, h11]

/-- Witness of C8: saving the binary32 value nearest to 73.6 (73.59999847412109375,
whose binary32 product with 10 is 736 = 2 * 256 + 224), power on, Cool mode on a
never-written EEPROM. -/
theorem writeEEPROM_layout_witness :
    Binary32.savedState.setPoint = Binary32.round 73.6
    ∧ (Binary32.writeEEPROM Binary32.savedState blankStorage).2.1.data 0 = 0x99
    ∧ ((Binary32.writeEEPROM Binary32.savedState blankStorage).2.1.data 5).val = 2
    ∧ ((Binary32.writeEEPROM Binary32.savedState blankStorage).2.1.data 6).val = 224
    ∧ ((Binary32.writeEEPROM Binary32.savedState blankStorage).2.1.data 10).val = 1
    ∧ ((Binary32.writeEEPROM Binary32.savedState blankStorage).2.1.data 11).val = 1
    ∧ (Binary32.writeEEPROM Binary32.savedState blankStorage).2.1.data 7 = 0xFF := by
  have hs : Binary32.round (Binary32.savedState.setPoint * 10) = ((736 : ℕ) : ℚ) := by
    have e2 : Binary32.savedState.setPoint = 9646899 / 131072 := rfl
    rw [e2, Binary32.round_saved_mul_ten]
    norm_num
  have hs0 : Binary32.round ((Binary32.savedState.storedSetPoint : Int) : ℚ)
      ≠ Binary32.round (Binary32.savedState.setPoint * 10) := by
    have e1 : ((Binary32.savedState.storedSetPoint : Int) : ℚ) = 0 := by
      simp [Binary32.savedState, Binary32.initGlobals, initGlobals]
    rw [e1, Binary32.round_zero, hs]
    norm_num
  have H := writeEEPROM_layout Binary32.savedState blankStorage 736 hs (by norm_num) hs0
    (by decide) (by decide)
  refine ⟨?_, H.1, H.2.1, H.2.2.1, H.2.2.2.1, H.2.2.2.2.1,
    H.2.2.2.2.2.1 7 (by decide) (by decide) (by decide) (by decide) (by decide)⟩
  rw [Binary32.round_saved]
  rfl

namespace Binary32

/-- The flash contents after `writeEEPROM` decode to the settings whenever each field
either differs from its shadow (and is written) or is already held by the buffer, and
either some field differs (marker written, buffer committed) or the flash already
holds the buffer with the valid marker. -/
theorem writeEEPROM_flash_decodes (g : Globals) (E : EEPROMClass) (n : ℕ) (hle : n ≤ 65535)
    (hn : round (g.setPoint * 10) = (n : ℚ))
    (h1 : round (g.storedSetPoint : ℚ) ≠ round (g.setPoint * 10)
      ∨ word (E.data 5) (E.data 6) = n)
    (h2 : g.storedPowerState ≠ g.powerSet ∨ byteToBool (E.data 10) = g.powerSet)
    (h3 : g.storedHeatMode ≠ g.heatMode ∨ byteToBool (E.data 11) = g.heatMode)
    (h0 : (round (g.storedSetPoint : ℚ) ≠ round (g.setPoint * 10)
        ∨ g.storedPowerState ≠ g.powerSet ∨ g.storedHeatMode ≠ g.heatMode)
      ∨ (E.flash = E.data ∧ E.data 0 = 0x99)) :
    (writeEEPROM g E).2.1.flash 0 = 0x99
    ∧ word ((writeEEPROM g E).2.1.flash 5) ((writeEEPROM g E).2.1.flash 6) = n
    ∧ byteToBool ((writeEEPROM g E).2.1.flash 10) = g.powerSet
    ∧ byteToBool ((writeEEPROM g E).2.1.flash 11) = g.heatMode := by
  obtain ⟨hd, hfl⟩ := writeEEPROM_storage g E
  rw [hn, floatToInt_of_word n hle] at hd
  rw [hn] at h1 h0 hfl
  have hw := word_highByte_lowByte n hle
  have hbp := byteToBool_boolToByte g.powerSet
  have hbm := byteToBool_boolToByte g.heatMode
  by_cases c1 : round (g.storedSetPoint : ℚ) = (n : ℚ) <;>
  by_cases c2 : g.storedPowerState = g.powerSet <;>
  by_cases c3 : g.storedHeatMode = g.heatMode <;>
  simp only [c1, c2, c3, ne_eq, not_true_eq_false, not_false_eq_true, false_or, or_false,
    true_or, or_true, false_and, true_and, if_true, if_false] at hd hfl h0 h1 h2 h3 <;>
  rw [hfl] <;>
  first
    | (rw [hd]; simp [EEPROM_ID, hw, hbp, hbm, h1, h2, h3])
    | (obtain ⟨e1, e2⟩ := h0; rw [e1]; exact ⟨e2, h1, h2, h3⟩)

end Binary32

/-- C4 (as amended). Settings codec round trip. For every integer `n` with
`0 <= n <= 65535` and every power flag and mode flag, take as set point the binary32
value nearest to `n / 10` (the float the code holds for that one-decimal set point).
Every storage that holds the record encoded as `writeEEPROM` encodes it (marker 0x99 at
byte 0, `setPoint * 10` converted to `int` and split by `highByte` / `lowByte` into
bytes 5 and 6, the power flag at byte 10, the mode flag at byte 11) is decoded by the
startup load to exactly the original set point, power flag and mode flag. And
`writeEEPROM` followed by the startup load yields exactly the original settings from
every state and storage in which each field either differs from its shadow or is
already held by the storage, and some field differs or the valid marker is already
committed. -/
theorem writeEEPROM_setup_roundtrip (n : Nat) (hle : n ≤ 65535) (p m : Bool) :
    (∀ (E : EEPROMClass) (g₀ : Globals),
      E.flash 0 = 0x99 →
      E.flash 5 = highByte (Binary32.floatToInt
        (Binary32.round (Binary32.round ((n : ℚ) / 10) * 10))) →
      E.flash 6 = lowByte (Binary32.floatToInt
        (Binary32.round (Binary32.round ((n : ℚ) / 10) * 10))) →
      E.flash 10 = boolToByte p → E.flash 11 = boolToByte m →
      (Binary32.setup g₀ E).1.setPoint = Binary32.round ((n : ℚ) / 10)
      ∧ (Binary32.setup g₀ E).1.powerSet = p
      ∧ (Binary32.setup g₀ E).1.heatMode = m)
    ∧ (∀ (g g₀ : Globals) (E : EEPROMClass),
      g.setPoint = Binary32.round ((n : ℚ) / 10) → g.powerSet = p → g.heatMode = m →
      (Binary32.round (g.storedSetPoint : ℚ) ≠ Binary32.round (g.setPoint * 10)
        ∨ word (E.data 5) (E.data 6) = n) →
      (g.storedPowerState ≠ g.powerSet ∨ byteToBool (E.data 10) = g.powerSet) →
      (g.storedHeatMode ≠ g.heatMode ∨ byteToBool (E.data 11) = g.heatMode) →
      ((Binary32.round (g.storedSetPoint : ℚ) ≠ Binary32.round (g.setPoint * 10)
          ∨ g.storedPowerState ≠ g.powerSet ∨ g.storedHeatMode ≠ g.heatMode)
        ∨ (E.flash = E.data ∧ E.data 0 = 0x99)) →
      (Binary32.setup g₀ (Binary32.writeEEPROM g E).2.1).1.setPoint = g.setPoint
      ∧ (Binary32.setup g₀ (Binary32.writeEEPROM g E).2.1).1.powerSet = g.powerSet
      ∧ (Binary32.setup g₀ (Binary32.writeEEPROM g E).2.1).1.heatMode = g.heatMode) := by
  have hprod := Binary32.round_tenth_mul_ten n hle
  constructor
  · intro E g₀ h0 h5 h6 h10 h11
    rw [hprod, Binary32.floatToInt_of_word n hle] at h5 h6
    have hw : word (E.flash 5) (E.flash 6) = n := by
      rw [h5, h6]; exact word_highByte_lowByte n hle
    obtain ⟨k1, k2, k3⟩ := Binary32.setup_decode g₀ E n hle h0 hw
    rw [h10, byteToBool_boolToByte] at k2
    rw [h11, byteToBool_boolToByte] at k3
    exact ⟨k1, k2, k3⟩
  · intro g g₀ E hsp _ _ h1 h2 h3 h0
    have hn : Binary32.round (g.setPoint * 10) = (n : ℚ) := by rw [hsp]; exact hprod
    obtain ⟨f0, fw, fp, fm⟩ := Binary32.writeEEPROM_flash_decodes g E n hle hn h1 h2 h3 h0
    obtain ⟨k1, k2, k3⟩ :=
      Binary32.setup_decode g₀ (Binary32.writeEEPROM g E).2.1 n hle f0 fw
    rw [fp] at k2
    rw [fm] at k3
    rw [hsp]
    exact ⟨k1, k2, k3⟩

/-- Witness of C4 as amended, with `n = 736` (set point 73.6), power on, Cool mode: a
storage holding the marker, bytes 2 and 224, 1 and 1 is loaded as the binary32 value
nearest to 73.6, power on, Cool; and that set point saved from `savedState` on a
never-written EEPROM is loaded back unchanged at the next start. -/
theorem writeEEPROM_setup_roundtrip_witness :
    ((Binary32.setup (Binary32.initGlobals 17 4) (storageWithMarker 0x99)).1.setPoint
        = Binary32.round 73.6
      ∧ (Binary32.setup (Binary32.initGlobals 17 4) (storageWithMarker 0x99)).1.powerSet = true
      ∧ (Binary32.setup (Binary32.initGlobals 17 4) (storageWithMarker 0x99)).1.heatMode
          = true)
    ∧ ((Binary32.setup (Binary32.initGlobals 17 4)
          (Binary32.writeEEPROM Binary32.savedState blankStorage).2.1).1.setPoint
        = Binary32.round 73.6
      ∧ (Binary32.setup (Binary32.initGlobals 17 4)
          (Binary32.writeEEPROM Binary32.savedState blankStorage).2.1).1.powerSet = true
      ∧ (Binary32.setup (Binary32.initGlobals 17 4)
          (Binary32.writeEEPROM Binary32.savedState blankStorage).2.1).1.heatMode = true) := by
  have H := writeEEPROM_setup_roundtrip 736 (by norm_num) true true
  have e : ((736 : ℕ) : ℚ) / 10 = 73.6 := by norm_num
  have hprod := Binary32.round_tenth_mul_ten 736 (by norm_num)
  have hfi := Binary32.floatToInt_of_word 736 (by norm_num)
  have hsp : Binary32.savedState.setPoint = Binary32.round (((736 : ℕ) : ℚ) / 10) := by
    rw [e, Binary32.round_saved]; rfl
  have hs0 : Binary32.round ((Binary32.savedState.storedSetPoint : Int) : ℚ)
      ≠ Binary32.round (Binary32.savedState.setPoint * 10) := by
    have e1 : ((Binary32.savedState.storedSetPoint : Int) : ℚ) = 0 := by
      simp [Binary32.savedState, Binary32.initGlobals, initGlobals]
    rw [e1, Binary32.round_zero, hsp, hprod]
    norm_num
  constructor
  · have A := H.1 (storageWithMarker 0x99) (Binary32.initGlobals 17 4) rfl
      (by rw [hprod, hfi]; decide) (by rw [hprod, hfi]; decide) rfl rfl
    rw [e] at A
    exact A
  · have B := H.2 Binary32.savedState (Binary32.initGlobals 17 4) blankStorage hsp rfl rfl
      (Or.inl hs0) (Or.inl (by decide)) (Or.inl (by decide)) (Or.inl (Or.inl hs0))
    rw [hsp, e] at B
    exact B

namespace Binary32

theorem round_neg_fifty : round (-50) = -50 := by
  rw [round_of_binade (-50) 5 (-13107200) (by norm_num)
    (by rw [abs_neg, abs_of_pos] <;> norm_num) (by rw [abs_neg, abs_of_pos] <;> norm_num)
    (Or.inl (by norm_num))]
  norm_num

theorem floatToInt_neg_fifty : floatToInt (-50) = -50 := by
  have h : WebTherm.floatToInt (-50) = -50 := by
    have e : (-50 : ℚ) = ((-50 : Int) : ℚ) := by norm_num
    unfold WebTherm.floatToInt
    rw [if_neg (by norm_num), e, Int.ceil_intCast]
  unfold floatToInt
  rw [h]
  norm_num

/-- The binary32 value nearest to 6548.6 is 13411533 / 2^11 = 6548.60009765625. -/
theorem round_reloaded : round (((65486 : ℕ) : ℚ) / 10) = 13411533 / 2048 := by
  rw [round_pos_of_binade _ 12 13411533 (by norm_num) (by norm_num) (by norm_num)
    (by rw [abs_lt]; norm_num)]
  norm_num

end Binary32

/-- C4 as stated fails. The set point -5.0 is representable to one decimal place (it
is a binary32 value and `setPoint * 10 = -50`), all three fields of `negativeState`
differ from their shadows, so `writeEEPROM` writes the marker and bytes 5-6, 10 and 11
(bytes 5-6 get 0xFF and 0xCE, the low 16 bits of -50), and the startup load then yields
the set point 6548.60009765625, not -5.0. -/
theorem roundtrip_fails_negative_setPoint :
    Binary32.negativeState.setPoint = -5
    ∧ Binary32.round (-5) = -5
    ∧ Binary32.round (Binary32.negativeState.setPoint * 10) = -50
    ∧ Binary32.round (Binary32.negativeState.storedSetPoint : ℚ)
        ≠ Binary32.round (Binary32.negativeState.setPoint * 10)
    ∧ Binary32.negativeState.storedPowerState ≠ Binary32.negativeState.powerSet
    ∧ Binary32.negativeState.storedHeatMode ≠ Binary32.negativeState.heatMode
    ∧ (Binary32.writeEEPROM Binary32.negativeState blankStorage).2.1.flash 0 = 0x99
    ∧ (Binary32.writeEEPROM Binary32.negativeState blankStorage).2.1.flash 5 = 0xFF
    ∧ (Binary32.writeEEPROM Binary32.negativeState blankStorage).2.1.flash 6 = 0xCE
    ∧ (Binary32.setup (Binary32.initGlobals 17 4)
        (Binary32.writeEEPROM Binary32.negativeState blankStorage).2.1).1.setPoint
        = 13411533 / 2048
    ∧ (Binary32.setup (Binary32.initGlobals 17 4)
        (Binary32.writeEEPROM Binary32.negativeState blankStorage).2.1).1.setPoint
        ≠ Binary32.negativeState.setPoint := by
  have hsp : Binary32.negativeState.setPoint = -5 := rfl
  have hr5 : Binary32.round (-5) = -5 := by
    rw [Binary32.round_of_binade (-5) 2 (-10485760) (by norm_num)
      (by rw [abs_neg, abs_of_pos] <;> norm_num) (by rw [abs_neg, abs_of_pos] <;> norm_num)
      (Or.inl (by norm_num))]
    norm_num
  have hprod : Binary32.round (Binary32.negativeState.setPoint * 10) = -50 := by
    rw [hsp]
    have e : (-5 : ℚ) * 10 = -50 := by norm_num
    rw [e, Binary32.round_neg_fifty]
  have c1 : Binary32.round (Binary32.negativeState.storedSetPoint : ℚ)
      ≠ Binary32.round (Binary32.negativeState.setPoint * 10) := by
    have e1 : ((Binary32.negativeState.storedSetPoint : Int) : ℚ) = 0 := by
      simp [Binary32.negativeState, Binary32.initGlobals, initGlobals]
    rw [e1, Binary32.round_zero, hprod]
    norm_num
  obtain ⟨hd, hfl⟩ := Binary32.writeEEPROM_storage Binary32.negativeState blankStorage
  rw [if_pos (Or.inl c1)] at hfl
  rw [hprod, Binary32.floatToInt_neg_fifty] at hd
  have c1' : Binary32.round (Binary32.negativeState.storedSetPoint : ℚ) ≠ -50 := by
    rw [← hprod]; exact c1
  have hhi : highByte (-50) = 0xFF := by decide
  have hlo : lowByte (-50) = 0xCE := by decide
  have f0 : (Binary32.writeEEPROM Binary32.negativeState blankStorage).2.1.flash 0 = 0x99 := by
    rw [hfl, hd]; simp [c1', EEPROM_ID]
  have f5 : (Binary32.writeEEPROM Binary32.negativeState blankStorage).2.1.flash 5 = 0xFF := by
    rw [hfl, hd]; simp [c1', hhi]
  have f6 : (Binary32.writeEEPROM Binary32.negativeState blankStorage).2.1.flash 6 = 0xCE := by
    rw [hfl, hd]; simp [c1', hlo]
  have hw : word ((Binary32.writeEEPROM Binary32.negativeState blankStorage).2.1.flash 5)
      ((Binary32.writeEEPROM Binary32.negativeState blankStorage).2.1.flash 6) = 65486 := by
    rw [f5, f6]; decide
  have hload := (Binary32.setup_decode (Binary32.initGlobals 17 4)
    (Binary32.writeEEPROM Binary32.negativeState blankStorage).2.1 65486 (by norm_num)
    f0 hw).1
  rw [Binary32.round_reloaded] at hload
  refine ⟨hsp, hr5, hprod, c1, by decide, by decide, f0, f5, f6, hload, ?_⟩
  rw [hload, hsp]
  norm_num

end WebTherm
